import Mathlib

/-!
# miobservable: Observable and SharedObservable

A shallow embedding of `src/index.js`.

* An observer is a JavaScript object: it has an identity and it may or may not carry each of the
  callbacks `next`, `complete`, `error`. Calling a callback that is absent is the JavaScript
  `TypeError` ("x is not a function"); calling one that is present records the delivery in the
  world's log (observer callbacks do not re-enter `subscribe`/`unsubscribe`).
* A producer (`subscriberFn`) is a JavaScript function that may keep state in its closure, so it
  is indexed by the number of times it has been invoked before. One invocation pushes a sequence
  of events into the subscriber it is given and then returns its teardown function or throws.
  A callback that throws inside the producer aborts the producer (no `try` in the sources).
* The world records every delivery, how often the producer has been invoked, and every teardown
  invocation (by the activation whose teardown it was). A teardown is a function, as the
  constructor's comment requires ("returning a function that will cleanup and cancel the
  subscription"), and invoking it returns normally.
* A call either returns a value or throws; the state in which it stops is kept in both cases.
-/

namespace Miobservable

/-- The three signals of the `Observer` typedef: `next(value)`, `complete()`, `error(error)`. -/
inductive Event where
  | next (value : Int)
  | complete
  | error (err : Int)
  deriving DecidableEq, Repr

/-- What a JavaScript call can throw: a `TypeError` of the runtime, or a value thrown by a
producer. -/
inductive JsError where
  | typeError
  | thrown (payload : Int)
  deriving DecidableEq, Repr

/-- How a JavaScript call ends: `return value` or `throw e`. -/
inductive Completion (α : Type) where
  | normal (value : α)
  | throw (e : JsError)
  deriving DecidableEq, Repr

/-- An observer object: its identity and which of the three callbacks it carries. -/
structure Observer where
  id : Nat
  hasNext : Bool
  hasComplete : Bool
  hasError : Bool
  deriving DecidableEq, Repr

/-- The teardown function returned by one invocation of a producer. -/
structure Teardown where
  activation : Nat
  deriving DecidableEq, Repr

/-- The `Disposable` typedef: `{ unsubscribe }`. -/
structure Disposable where
  unsubscribe : Teardown
  deriving DecidableEq, Repr

/-- Everything observable from outside the two classes. -/
structure World where
  log : List (Observer × Event)
  activations : Nat
  teardowns : List Nat
  deriving DecidableEq, Repr

/-- The world before anything has run. -/
def World.empty : World := ⟨[], 0, []⟩

/-- Whether the observer carries the callback for this event. -/
def Observer.implements (o : Observer) : Event → Bool
  | .next _ => o.hasNext
  | .complete => o.hasComplete
  | .error _ => o.hasError

/-- An observer with all three callbacks, as the `Observer` typedef declares it. -/
def Observer.total (o : Observer) : Bool := o.hasNext && o.hasComplete && o.hasError

/-- The call `sub.next(item)` / `sub.complete()` / `sub.error(e)` on an observer object. -/
def Observer.call (o : Observer) (e : Event) (w : World) : Completion Unit × World :=
  if o.implements e then (.normal (), { w with log := w.log ++ [(o, e)] })
  else (.throw .typeError, w)

/-- The events an observer has received, oldest first. -/
def World.received (w : World) (o : Observer) : List Event :=
  (w.log.filter (fun d => decide (d.1 = o))).map Prod.snd

/-- Invoking a teardown function. -/
def Teardown.invoke (t : Teardown) (w : World) : World :=
  { w with teardowns := w.teardowns ++ [t.activation] }

/-- Calling `disposable.unsubscribe()` on a `Disposable` made by `Observable.subscribe`:
the field holds the teardown itself (`{ unsubscribe: cancel }`). -/
def Disposable.call (d : Disposable) (w : World) : World := d.unsubscribe.invoke w

/-- The object a producer is given: something whose callbacks can be called. -/
abbrev Subscriber := Event → World → Completion Unit × World

/-- One run of a producer body: the events it pushes, then `return teardown` (`none`) or
`throw e` (`some e`). -/
structure Script where
  emits : List Event
  throws : Option JsError
  deriving DecidableEq, Repr

/-- A producer function `(subscriber) => teardown`; the index is the number of earlier
invocations. -/
abbrev Producer := Nat → Script

/-- The statements `subscriber.next(..); ...; subscriber.complete()` of a producer body, in
order; a callback that throws ends the body. -/
def emitAll (subscriber : Subscriber) : List Event → World → Completion Unit × World
  | [], w => (.normal (), w)
  | e :: es, w =>
    match subscriber e w with
    | (.normal _, w1) => emitAll subscriber es w1
    | (.throw err, w1) => (.throw err, w1)

/-- The call `subscriberFn(subscriber)`. -/
def Producer.invoke (p : Producer) (subscriber : Subscriber) (w : World) :
    Completion Teardown × World :=
  let n := w.activations
  match emitAll subscriber (p n).emits { w with activations := n + 1 } with
  | (.normal _, w1) =>
    match (p n).throws with
    | none => (.normal ⟨n⟩, w1)
    | some err => (.throw err, w1)
  | (.throw err, w1) => (.throw err, w1)

/-- The class `Observable`: its only field is `subscriberFn`. -/
structure Observable where
  subscriberFn : Producer

/-- `Observable.subscribe(subscriber)`:
`const cancel = this.subscriberFn(subscriber); return { unsubscribe: cancel };` -/
def Observable.subscribe (self : Observable) (subscriber : Subscriber) (w : World) :
    Completion Disposable × World :=
  match self.subscriberFn.invoke subscriber w with
  | (.normal cancel, w1) => (.normal ⟨cancel⟩, w1)
  | (.throw err, w1) => (.throw err, w1)

/-- `Set.prototype.add` on a set kept in insertion order. -/
def setAdd (s : List Observer) (o : Observer) : List Observer :=
  if o ∈ s then s else s ++ [o]

/-- `Set.prototype.delete`. -/
def setDelete (s : List Observer) (o : Observer) : List Observer := s.erase o

/-- The loop `for (var sub of this.#subscribers) { sub.next(item); }` (and the same loop for
`complete` and `error`): a callback that throws ends the loop. -/
def broadcast : List Observer → Event → World → Completion Unit × World
  | [], _, w => (.normal (), w)
  | sub :: rest, e, w =>
    match sub.call e w with
    | (.normal _, w1) => broadcast rest e w1
    | (.throw err, w1) => (.throw err, w1)

/-- The class `SharedObservable` with its four private fields. -/
structure SharedObservable where
  subscribers : List Observer
  started : Bool
  inner : Observable
  cancel : Option Disposable

/-- `new SharedObservable(observable)`. -/
def SharedObservable.new (observable : Observable) : SharedObservable :=
  ⟨[], false, observable, none⟩

/-- The object returned by `SharedObservable.subscribe`: its `unsubscribe` closure captures the
subscriber. -/
structure Handle where
  subscriber : Observer
  deriving DecidableEq, Repr

/-- `SharedObservable.subscribe(subscriber)`. -/
def SharedObservable.subscribe (self : SharedObservable) (subscriber : Observer) (w : World) :
    Completion Handle × SharedObservable × World :=
  let s1 := { self with subscribers := setAdd self.subscribers subscriber }
  if !s1.started then
    match s1.inner.subscribe (broadcast s1.subscribers) w with
    | (.normal d, w1) => (.normal ⟨subscriber⟩, { s1 with cancel := some d, started := true }, w1)
    | (.throw err, w1) => (.throw err, s1, w1)
  else (.normal ⟨subscriber⟩, s1, w)

/-- The closure `unsubscribe` returned by `SharedObservable.subscribe`. With `#cancel` still
`undefined` the call `this.#cancel.unsubscribe()` is a `TypeError`. -/
def SharedObservable.unsubscribe (self : SharedObservable) (h : Handle) (w : World) :
    Completion Unit × SharedObservable × World :=
  let s1 := { self with subscribers := setDelete self.subscribers h.subscriber }
  if s1.subscribers.length = 0 then
    match s1.cancel with
    | some d => (.normal (), s1, d.call w)
    | none => (.throw .typeError, s1, w)
  else (.normal (), s1, w)

/-- The upstream calling a callback of the broadcaster object after `subscribe` has returned
(a timer tick): the loop reads `this.#subscribers` at that moment. -/
def SharedObservable.deliver (self : SharedObservable) (e : Event) (w : World) :
    Completion Unit × World :=
  broadcast self.subscribers e w

/-- The producer of `onetwothree`. -/
def onetwothreeFn : Producer :=
  fun _ => ⟨[.next 1, .next 2, .next 3, .complete], none⟩

/-- `const onetwothree = new Observable(...)`. -/
def onetwothree : Observable := ⟨onetwothreeFn⟩

/-- The synchronous part of the producer of `keepgoing`: it only arms the interval and returns
the function that clears it. -/
def keepgoingFn : Producer := fun _ => ⟨[], none⟩

/-- `const keepgoing = new Observable(...)`. -/
def keepgoing : Observable := ⟨keepgoingFn⟩

/-- Subscribing observers one after another; a call that throws ends the sequence. -/
def subscribeAll (s : SharedObservable) (w : World) :
    List Observer → Completion (List Handle) × SharedObservable × World
  | [] => (.normal [], s, w)
  | o :: os =>
    match s.subscribe o w with
    | (.normal h, s1, w1) =>
      match subscribeAll s1 w1 os with
      | (.normal hs, s2, w2) => (.normal (h :: hs), s2, w2)
      | (.throw err, s2, w2) => (.throw err, s2, w2)
    | (.throw err, s1, w1) => (.throw err, s1, w1)

/-- Calling `unsubscribe` on handles one after another; a call that throws ends the sequence. -/
def unsubscribeAll (s : SharedObservable) (w : World) :
    List Handle → Completion Unit × SharedObservable × World
  | [] => (.normal (), s, w)
  | h :: hs =>
    match s.unsubscribe h w with
    | (.normal _, s1, w1) => unsubscribeAll s1 w1 hs
    | (.throw err, s1, w1) => (.throw err, s1, w1)

/-- An observer carrying all three callbacks. -/
def fullObserver (id : Nat) : Observer := ⟨id, true, true, true⟩

/-- An observer as in the demo at the end of `index.js`: `next` and `complete`, no `error`. -/
def demoObserver (id : Nat) : Observer := ⟨id, true, true, false⟩

/-- The demo with two observers, both unsubscribed again: the component after the drain. -/
def drained : Completion Unit × SharedObservable × World :=
  let r := subscribeAll (SharedObservable.new keepgoing) World.empty
    [demoObserver 1, demoObserver 2]
  unsubscribeAll r.2.1 r.2.2 [⟨demoObserver 2⟩, ⟨demoObserver 1⟩]

/-- Calling `disposable.unsubscribe()` `k` times in a row. -/
def Disposable.callTimes (d : Disposable) : Nat → World → World
  | 0, w => w
  | k + 1, w => Disposable.callTimes d k (d.call w)

/-- A producer that is not in `index.js`: its only statement before `return` is
`subscriber.error(7)`. -/
def failingFn : Producer := fun _ => ⟨[.error 7], none⟩

/-- The demo with one observer on `keepgoing`, after its subscribe call. -/
def single : Completion Handle × SharedObservable × World :=
  (SharedObservable.new keepgoing).subscribe (demoObserver 1) World.empty

/-- The upstream delivering a sequence of events to the broadcaster, one after another. -/
def SharedObservable.deliverAll (self : SharedObservable) (es : List Event) (w : World) :
    Completion Unit × World :=
  emitAll self.deliver es w

/-- The states of a component over `inner`, created in world `w0`, that subscribe calls returning
normally and unsubscribe calls on handles not yet unsubscribed lead to; the list holds the
handles handed out and not yet unsubscribed. -/
inductive Reachable (inner : Observable) (w0 : World) :
    SharedObservable → World → List Handle → Prop where
  | init : Reachable inner w0 (SharedObservable.new inner) w0 []
  | subscribe {s : SharedObservable} {w : World} {hs : List Handle} (o : Observer) (h : Handle)
      (s1 : SharedObservable) (w1 : World) :
      Reachable inner w0 s w hs → s.subscribe o w = (.normal h, s1, w1) →
      Reachable inner w0 s1 w1 (h :: hs)
  | unsubscribe {s : SharedObservable} {w : World} {hs : List Handle} (h : Handle)
      (c : Completion Unit) (s1 : SharedObservable) (w1 : World) :
      Reachable inner w0 s w hs → h ∈ hs → s.unsubscribe h w = (c, s1, w1) →
      Reachable inner w0 s1 w1 (hs.erase h)

/-- One firing of the timer armed by activation `activation` of the `keepgoing` producer
(`setInterval(() => { subscriber.next(Math.random() * 10); }, 200)`), with `value` standing for
the number drawn. The timer exists once that activation has run, and the host stops firing it
once its teardown (`clearInterval(intervalId)`) has been invoked. -/
def keepgoingTick (subscriber : Subscriber) (activation : Nat) (value : Int) (w : World) :
    Completion Unit × World :=
  if activation < w.activations ∧ activation ∉ w.teardowns then subscriber (.next value) w
  else (.normal (), w)

/-- Successive firings of the timer of one activation of `keepgoing`. -/
def keepgoingTicks (subscriber : Subscriber) (activation : Nat) :
    List Int → World → Completion Unit × World
  | [], w => (.normal (), w)
  | v :: vs, w =>
    match keepgoingTick subscriber activation v w with
    | (.normal _, w1) => keepgoingTicks subscriber activation vs w1
    | (.throw err, w1) => (.throw err, w1)

/-- A producer that is not in `index.js`: its first invocation throws `7` before it has called
any callback, every later invocation calls nothing and returns its teardown. -/
def flakyFn : Producer :=
  fun n => if n = 0 then ⟨[], some (.thrown 7)⟩ else ⟨[], none⟩

/-- The upstream calling `next`, `complete` or `error` of the broadcaster object, as a step of
the component: the three arrow functions (index.js:67-81) hold one loop each and assign no
field, so the component after the call is the component before it. -/
def SharedObservable.upstream (self : SharedObservable) (e : Event) (w : World) :
    Completion Unit × SharedObservable × World :=
  ((self.deliver e w).1, self, (self.deliver e w).2)

/-- Three observers subscribed to `keepgoing`, a full one, one as in the demo (no `error`
callback) and another full one, and the handle of the first unsubscribed again. -/
def firstUnsubscribed : Completion Unit × SharedObservable × World :=
  let r := subscribeAll (SharedObservable.new keepgoing) World.empty
    [fullObserver 1, demoObserver 2, fullObserver 3]
  r.2.1.unsubscribe ⟨fullObserver 1⟩ r.2.2

/-- A demo observer (no `error` callback) subscribed to `keepgoing`, and then one full observer
subscribed twice. -/
def subscribedTwice : Completion (List Handle) × SharedObservable × World :=
  subscribeAll (SharedObservable.new keepgoing) World.empty
    [demoObserver 1, fullObserver 2, fullObserver 2]

/-! ## Basic facts about the embedding -/

theorem Observer.call_activations (o : Observer) (e : Event) (w : World) :
    (o.call e w).2.activations = w.activations ∧ (o.call e w).2.teardowns = w.teardowns := by
  unfold Observer.call
  split <;> simp

theorem broadcast_frame (subs : List Observer) (e : Event) (w : World) :
    (broadcast subs e w).2.activations = w.activations ∧
      (broadcast subs e w).2.teardowns = w.teardowns := by
  induction subs generalizing w with
  | nil => simp [broadcast]
  | cons sub rest ih =>
    have hc := Observer.call_activations sub e w
    unfold broadcast
    rcases hcall : sub.call e w with ⟨c, w1⟩
    rw [hcall] at hc
    cases c with
    | normal v => simp only; rw [(ih w1).1, (ih w1).2]; exact hc
    | throw err => exact hc

theorem emitAll_frame (subs : List Observer) (es : List Event) (w : World) :
    (emitAll (broadcast subs) es w).2.activations = w.activations ∧
      (emitAll (broadcast subs) es w).2.teardowns = w.teardowns := by
  induction es generalizing w with
  | nil => simp [emitAll]
  | cons e es ih =>
    have hc := broadcast_frame subs e w
    unfold emitAll
    rcases hcall : broadcast subs e w with ⟨c, w1⟩
    rw [hcall] at hc
    cases c with
    | normal v => simp only; rw [(ih w1).1, (ih w1).2]; exact hc
    | throw err => exact hc

/-- A subscribe call on a started component only adds the observer to the set. -/
theorem SharedObservable.subscribe_of_started (s : SharedObservable) (o : Observer) (w : World)
    (h : s.started = true) :
    s.subscribe o w = (.normal ⟨o⟩, { s with subscribers := setAdd s.subscribers o }, w) := by
  simp [SharedObservable.subscribe, h]

/-- A subscribe call on a component that has not started and returns normally: the inner
observable has been subscribed once and its handle stored. -/
theorem SharedObservable.subscribe_of_not_started (s : SharedObservable) (o : Observer)
    (w : World) (h : s.started = false) (hd : Handle) (s1 : SharedObservable) (w1 : World)
    (hr : s.subscribe o w = (.normal hd, s1, w1)) :
    hd = ⟨o⟩ ∧
      s1 = ⟨setAdd s.subscribers o, true, s.inner, some ⟨⟨w.activations⟩⟩⟩ ∧
      w1.activations = w.activations + 1 ∧ w1.teardowns = w.teardowns := by
  have hf := emitAll_frame (setAdd s.subscribers o) (s.inner.subscriberFn w.activations).emits
    { w with activations := w.activations + 1 }
  simp only [SharedObservable.subscribe, h, Observable.subscribe, Producer.invoke] at hr
  rcases he : emitAll (broadcast (setAdd s.subscribers o))
    (s.inner.subscriberFn w.activations).emits { w with activations := w.activations + 1 }
    with ⟨c, w2⟩
  rw [he] at hr hf
  cases c with
  | throw err => simp at hr
  | normal v =>
    cases ht : (s.inner.subscriberFn w.activations).throws with
    | some err => simp [ht] at hr
    | none =>
      simp [ht] at hr
      obtain ⟨h1, h2, h3⟩ := hr
      subst h1 h2 h3
      exact ⟨rfl, rfl, hf.1, hf.2⟩

/-- A subscribe call on a component that has not started invokes the inner observable once,
whether it returns or throws. -/
theorem SharedObservable.subscribe_activations (s : SharedObservable) (o : Observer) (w : World)
    (h : s.started = false) : (s.subscribe o w).2.2.activations = w.activations + 1 := by
  have hf := emitAll_frame (setAdd s.subscribers o) (s.inner.subscriberFn w.activations).emits
    { w with activations := w.activations + 1 }
  simp only [SharedObservable.subscribe, h, Observable.subscribe, Producer.invoke]
  rcases he : emitAll (broadcast (setAdd s.subscribers o))
    (s.inner.subscriberFn w.activations).emits { w with activations := w.activations + 1 }
    with ⟨c, w2⟩
  rw [he] at hf
  cases c with
  | throw err => simpa using hf.1
  | normal v =>
    cases ht : (s.inner.subscriberFn w.activations).throws with
    | some err => simpa [ht] using hf.1
    | none => simpa [ht] using hf.1

theorem subscribeAll_of_started (s : SharedObservable) (w : World) (os : List Observer)
    (h : s.started = true) :
    subscribeAll s w os =
      (.normal (os.map Handle.mk), { s with subscribers := os.foldl setAdd s.subscribers }, w) := by
  induction os generalizing s with
  | nil => simp [subscribeAll]
  | cons o os ih =>
    unfold subscribeAll
    rw [SharedObservable.subscribe_of_started s o w h]
    simp only
    rw [ih ⟨setAdd s.subscribers o, s.started, s.inner, s.cancel⟩ h]
    simp

theorem foldl_setAdd_of_nodup (S os : List Observer) (h : (S ++ os).Nodup) :
    os.foldl setAdd S = S ++ os := by
  induction os generalizing S with
  | nil => simp
  | cons o os ih =>
    have hno : o ∉ S := by
      intro hm
      have := List.nodup_append.mp h
      exact this.2.2 hm (List.mem_cons_self o os)
    have hstep : setAdd S o = S ++ [o] := by simp [setAdd, hno]
    simp only [List.foldl_cons, hstep]
    rw [ih (S ++ [o]) (by simpa using h)]
    simp

/-- Subscribing to a fresh component, the first call returning normally: every later call
returns normally too and leaves the world as the first call left it. -/
theorem subscribeAll_new (inner : Observable) (w : World) (o : Observer) (os : List Observer)
    (hd : Handle) (h1 : ((SharedObservable.new inner).subscribe o w).1 = .normal hd) :
    subscribeAll (SharedObservable.new inner) w (o :: os) =
        (.normal ((o :: os).map Handle.mk),
          ⟨os.foldl setAdd [o], true, inner, some ⟨⟨w.activations⟩⟩⟩,
          ((SharedObservable.new inner).subscribe o w).2.2) ∧
      ((SharedObservable.new inner).subscribe o w).2.2.activations = w.activations + 1 ∧
      ((SharedObservable.new inner).subscribe o w).2.2.teardowns = w.teardowns := by
  rcases hr : (SharedObservable.new inner).subscribe o w with ⟨c, s1, w1⟩
  rw [hr] at h1
  simp only at h1
  subst h1
  obtain ⟨h2, h3, h4, h5⟩ := SharedObservable.subscribe_of_not_started
    (SharedObservable.new inner) o w rfl hd s1 w1 hr
  subst h2 h3
  refine ⟨?_, h4, h5⟩
  unfold subscribeAll
  rw [hr]
  simp only
  rw [subscribeAll_of_started _ w1 os rfl]
  simp [SharedObservable.new, setAdd]

/-- A sequence of subscribes to a fresh component that returns normally began with a call that
returned normally. -/
theorem subscribeAll_first_normal (s : SharedObservable) (w : World) (o : Observer)
    (os : List Observer) (hs : List Handle) (s1 : SharedObservable) (w1 : World)
    (h : subscribeAll s w (o :: os) = (.normal hs, s1, w1)) :
    ∃ hd, (s.subscribe o w).1 = .normal hd := by
  unfold subscribeAll at h
  rcases hr : s.subscribe o w with ⟨c, s2, w2⟩
  rw [hr] at h
  cases c with
  | normal hd => exact ⟨hd, rfl⟩
  | throw err => simp at h

/-- Unsubscribing distinct registered handles from a component whose upstream handle is stored:
every call returns normally, and the upstream handle is called once, by the call that empties
the set, if there is one. -/
theorem unsubscribeAll_distinct (us : List Handle) (S : List Observer) (st : Bool)
    (inner : Observable) (d : Disposable) (w : World)
    (hS : S.Nodup) (hus : us.Nodup) (hmem : ∀ h ∈ us, h.subscriber ∈ S) :
    unsubscribeAll ⟨S, st, inner, some d⟩ w us =
      (.normal (), ⟨us.foldl (fun acc h => setDelete acc h.subscriber) S, st, inner, some d⟩,
        if 0 < us.length ∧ us.length = S.length then d.call w else w) ∧
      (us.foldl (fun acc h => setDelete acc h.subscriber) S).length = S.length - us.length := by
  induction us generalizing S w with
  | nil => simp [unsubscribeAll]
  | cons h t ih =>
    have hin : h.subscriber ∈ S := hmem h (List.mem_cons_self h t)
    have hlen : (S.erase h.subscriber).length = S.length - 1 := List.length_erase_of_mem hin
    have hpos : 0 < S.length := List.length_pos_of_mem hin
    have htn : t.Nodup := (List.nodup_cons.mp hus).2
    have hnt : h ∉ t := (List.nodup_cons.mp hus).1
    have hmem2 : ∀ h2 ∈ t, h2.subscriber ∈ S.erase h.subscriber := by
      intro h2 h2t
      have hne : h2.subscriber ≠ h.subscriber := by
        intro heq
        apply hnt
        have : h2 = h := by cases h2; cases h; simp_all
        exact this ▸ h2t
      exact (List.mem_erase_of_ne hne).mpr (hmem h2 (List.mem_cons_of_mem h h2t))
    have hS2 : (S.erase h.subscriber).Nodup := hS.erase _
    by_cases hz : (S.erase h.subscriber).length = 0
    · have hnil : S.erase h.subscriber = [] := List.length_eq_zero.mp hz
      have ht : t = [] := by
        cases t with
        | nil => rfl
        | cons h2 t2 =>
          have := hmem2 h2 (List.mem_cons_self h2 t2)
          rw [hnil] at this
          simp at this
      subst ht
      have hS1 : S.length = 1 := by omega
      simp [unsubscribeAll, SharedObservable.unsubscribe, setDelete, hnil, hS1]
    · obtain ⟨ih1, ih2⟩ := ih (S.erase h.subscriber) w hS2 htn hmem2
      have hstep : SharedObservable.unsubscribe ⟨S, st, inner, some d⟩ h w =
          (.normal (), ⟨S.erase h.subscriber, st, inner, some d⟩, w) := by
        simp [SharedObservable.unsubscribe, setDelete, hz]
      unfold unsubscribeAll
      rw [hstep]
      simp only [List.foldl_cons, setDelete]
      simp only [setDelete] at ih1 ih2
      rw [ih1, ih2]
      refine ⟨?_, by simp [hlen]; omega⟩
      have hcond : (0 < t.length ∧ t.length = (S.erase h.subscriber).length) ↔
          (0 < (h :: t).length ∧ (h :: t).length = S.length) := by
        simp only [List.length_cons]
        constructor
        · rintro ⟨_, h2⟩; omega
        · rintro ⟨_, h2⟩; omega
      simp only [hcond]

theorem Handle.mk_injective : Function.Injective Handle.mk := by
  intro a b h
  cases h
  rfl

/-- What a normally returning sequence of subscribes of distinct observers to a fresh component
leaves behind. -/
theorem subscribeAll_new_distinct (inner : Observable) (w : World) (os : List Observer)
    (hs : List Handle) (s : SharedObservable) (w1 : World)
    (hne : os ≠ []) (hnd : os.Nodup)
    (hsub : subscribeAll (SharedObservable.new inner) w os = (.normal hs, s, w1)) :
    hs = os.map Handle.mk ∧ s = ⟨os, true, inner, some ⟨⟨w.activations⟩⟩⟩ ∧
      w1.activations = w.activations + 1 ∧ w1.teardowns = w.teardowns := by
  cases os with
  | nil => exact absurd rfl hne
  | cons o os =>
    obtain ⟨hd, h1⟩ := subscribeAll_first_normal _ w o os hs s w1 hsub
    obtain ⟨h2, h3, h4⟩ := subscribeAll_new inner w o os hd h1
    rw [h2] at hsub
    simp only [Prod.mk.injEq, Completion.normal.injEq] at hsub
    obtain ⟨e1, e2, e3⟩ := hsub
    have hf : os.foldl setAdd [o] = o :: os := by
      have := foldl_setAdd_of_nodup [o] os (by simpa using hnd)
      simpa using this
    rw [hf] at e2
    subst e3
    exact ⟨e1.symm, e2.symm, h3, h4⟩

/-- Unsubscribing the first `k` of the handles of a component with distinct observers, in any
order. -/
theorem unsubscribeAll_take (inner : Observable) (d : Disposable) (w1 : World)
    (os : List Observer) (us : List Handle) (hne : os ≠ []) (hnd : os.Nodup)
    (hperm : us.Perm (os.map Handle.mk)) (k : Nat) (hk : k ≤ us.length) :
    ∃ S, unsubscribeAll ⟨os, true, inner, some d⟩ w1 (us.take k) =
        (.normal (), ⟨S, true, inner, some d⟩, if k = us.length then d.call w1 else w1) ∧
      S.length = os.length - k := by
  have hlen : us.length = os.length := by simpa using hperm.length_eq
  have hpos : 0 < os.length := List.length_pos.mpr hne
  have husn : us.Nodup := hperm.nodup_iff.mpr (hnd.map Handle.mk_injective)
  have hmem : ∀ h ∈ us.take k, h.subscriber ∈ os := by
    intro h hh
    have := hperm.mem_iff.mp (List.mem_of_mem_take hh)
    obtain ⟨o, ho, rfl⟩ := List.mem_map.mp this
    exact ho
  obtain ⟨h1, h2⟩ := unsubscribeAll_distinct (us.take k) os true inner d w1 hnd
    (husn.sublist (List.take_sublist k us)) hmem
  refine ⟨(us.take k).foldl (fun acc h => setDelete acc h.subscriber) os, ?_, ?_⟩
  · rw [h1]
    have hcond : (0 < (us.take k).length ∧ (us.take k).length = os.length) ↔ k = us.length := by
      rw [List.length_take, Nat.min_eq_left hk]
      omega
    simp only [hcond]
  · rw [h2, List.length_take, Nat.min_eq_left hk]

/-! ## The claims -/

/-- C1, as stated, fails: in the demo with two observers, after both handles have been
unsubscribed the observer set is empty and the producer has been invoked once; the next
subscribe returns normally and the producer has still been invoked once, not twice. -/
theorem restart_after_drain_counterexample :
    drained.1 = .normal () ∧ drained.2.1.subscribers = [] ∧ drained.2.2.activations = 1 ∧
      (drained.2.1.subscribe (demoObserver 3) drained.2.2).1 = .normal ⟨demoObserver 3⟩ ∧
      (drained.2.1.subscribe (demoObserver 3) drained.2.2).2.2.activations = 1 ∧
      (drained.2.1.subscribe (demoObserver 3) drained.2.2).2.2.activations ≠ 2 := by
  decide

/-- C1, amended: after distinct observers have been subscribed to a fresh component and every
handle has been unsubscribed once, in any order, the observer set is empty and the started flag
is still set; the next subscribe call returns normally, registers its observer and leaves the
world unchanged, so the inner observable is not subscribed again and the activation count stays
at one more than before the first subscribe. -/
theorem subscribe_after_drain (inner : Observable) (w w1 : World) (os : List Observer)
    (us hs : List Handle) (s : SharedObservable) (o : Observer)
    (hne : os ≠ []) (hnd : os.Nodup)
    (hsub : subscribeAll (SharedObservable.new inner) w os = (.normal hs, s, w1))
    (hperm : us.Perm hs) :
    ∃ s2 w2, unsubscribeAll s w1 us = (.normal (), s2, w2) ∧
      s2.subscribers = [] ∧ s2.started = true ∧ w2.activations = w.activations + 1 ∧
      s2.subscribe o w2 = (.normal ⟨o⟩, { s2 with subscribers := [o] }, w2) := by
  obtain ⟨e1, e2, e3, _⟩ := subscribeAll_new_distinct inner w os hs s w1 hne hnd hsub
  subst e1 e2
  obtain ⟨S, h1, h2⟩ := unsubscribeAll_take inner ⟨⟨w.activations⟩⟩ w1 os us hne hnd hperm
    us.length (Nat.le_refl _)
  have hlen : us.length = os.length := by simpa using hperm.length_eq
  have hS : S = [] := List.length_eq_zero.mp (by omega)
  subst hS
  rw [List.take_length] at h1
  refine ⟨_, _, h1, rfl, rfl, ?_, ?_⟩
  · simpa [Disposable.call, Teardown.invoke] using e3
  · rw [SharedObservable.subscribe_of_started _ o _ rfl]
    simp [setAdd]

/-- The amended C1 at the demo with two observers unsubscribed in reverse order. -/
theorem subscribe_after_drain_witness :
    ∃ s2 w2, unsubscribeAll ⟨[demoObserver 1, demoObserver 2], true, keepgoing, some ⟨⟨0⟩⟩⟩
        ⟨[], 1, []⟩ [⟨demoObserver 2⟩, ⟨demoObserver 1⟩] = (.normal (), s2, w2) ∧
      s2.subscribers = [] ∧ s2.started = true ∧ w2.activations = World.empty.activations + 1 ∧
      s2.subscribe (demoObserver 3) w2 =
        (.normal ⟨demoObserver 3⟩, { s2 with subscribers := [demoObserver 3] }, w2) :=
  subscribe_after_drain keepgoing World.empty ⟨[], 1, []⟩ [demoObserver 1, demoObserver 2]
    [⟨demoObserver 2⟩, ⟨demoObserver 1⟩] [⟨demoObserver 1⟩, ⟨demoObserver 2⟩]
    ⟨[demoObserver 1, demoObserver 2], true, keepgoing, some ⟨⟨0⟩⟩⟩ (demoObserver 3)
    (by decide) (by decide) rfl (List.Perm.swap _ _ [])

/-- C2: a sequence of `n ≥ 1` subscribe calls on a fresh component, with no unsubscribe in
between, invokes the inner observable exactly once, in the first call (a call that throws ends
the sequence). When the first call returns normally, every later call returns normally and
leaves the world exactly as the first call left it, and each later subscribe only adds its
observer to the set. -/
theorem multicast_single_upstream (inner : Observable) (w : World) (o : Observer)
    (os : List Observer) :
    (subscribeAll (SharedObservable.new inner) w (o :: os)).2.2.activations =
        w.activations + 1 ∧
      ((SharedObservable.new inner).subscribe o w).2.2.activations = w.activations + 1 ∧
      ∀ hd : Handle, ((SharedObservable.new inner).subscribe o w).1 = .normal hd →
        subscribeAll (SharedObservable.new inner) w (o :: os) =
          (.normal ((o :: os).map Handle.mk),
            ⟨os.foldl setAdd [o], true, inner, some ⟨⟨w.activations⟩⟩⟩,
            ((SharedObservable.new inner).subscribe o w).2.2) ∧
        ∀ o2 : Observer,
          SharedObservable.subscribe
              ⟨os.foldl setAdd [o], true, inner, some ⟨⟨w.activations⟩⟩⟩ o2
              ((SharedObservable.new inner).subscribe o w).2.2 =
            (.normal ⟨o2⟩,
              ⟨setAdd (os.foldl setAdd [o]) o2, true, inner, some ⟨⟨w.activations⟩⟩⟩,
              ((SharedObservable.new inner).subscribe o w).2.2) := by
  have hfirst := SharedObservable.subscribe_activations (SharedObservable.new inner) o w rfl
  refine ⟨?_, hfirst, ?_⟩
  · rcases hr : (SharedObservable.new inner).subscribe o w with ⟨c, s1, w1⟩
    rw [hr] at hfirst
    cases c with
    | throw err =>
      unfold subscribeAll
      rw [hr]
      exact hfirst
    | normal hd =>
      have h1 : ((SharedObservable.new inner).subscribe o w).1 = .normal hd := by rw [hr]
      rw [(subscribeAll_new inner w o os hd h1).1, hr]
      exact hfirst
  · intro hd h1
    refine ⟨(subscribeAll_new inner w o os hd h1).1, ?_⟩
    intro o2
    rw [SharedObservable.subscribe_of_started _ o2 _ rfl]

/-- C2 at the demo: three observers on `keepgoing`, one activation, three handles. -/
theorem multicast_single_upstream_witness :
    (subscribeAll (SharedObservable.new keepgoing) World.empty
        [demoObserver 1, demoObserver 2, demoObserver 3]).2.2.activations = 1 ∧
      subscribeAll (SharedObservable.new keepgoing) World.empty
          [demoObserver 1, demoObserver 2, demoObserver 3] =
        (.normal [⟨demoObserver 1⟩, ⟨demoObserver 2⟩, ⟨demoObserver 3⟩],
          ⟨[demoObserver 1, demoObserver 2, demoObserver 3], true, keepgoing, some ⟨⟨0⟩⟩⟩,
          ⟨[], 1, []⟩) := by
  have h := multicast_single_upstream keepgoing World.empty (demoObserver 1)
    [demoObserver 2, demoObserver 3]
  exact ⟨h.1, (h.2.2 ⟨demoObserver 1⟩ (by decide)).1⟩

/-- C3: with distinct observers subscribed to a fresh component, unsubscribing the handles once
each in any order returns normally at every call; after `k` of the calls `n - k` observers are
registered, the teardown log is untouched while `k < n`, and after the last call it holds
exactly one more entry, the teardown of the one upstream activation. -/
theorem shared_teardown_timing (inner : Observable) (w w1 : World) (os : List Observer)
    (us hs : List Handle) (s : SharedObservable)
    (hne : os ≠ []) (hnd : os.Nodup)
    (hsub : subscribeAll (SharedObservable.new inner) w os = (.normal hs, s, w1))
    (hperm : us.Perm hs) (k : Nat) (hk : k ≤ us.length) :
    ∃ s2, unsubscribeAll s w1 (us.take k) =
        (.normal (), s2,
          if k = us.length then { w1 with teardowns := w1.teardowns ++ [w.activations] }
          else w1) ∧
      s2.subscribers.length = os.length - k ∧ us.length = os.length := by
  obtain ⟨e1, e2, _, _⟩ := subscribeAll_new_distinct inner w os hs s w1 hne hnd hsub
  subst e1 e2
  obtain ⟨S, h1, h2⟩ := unsubscribeAll_take inner ⟨⟨w.activations⟩⟩ w1 os us hne hnd hperm k hk
  exact ⟨_, h1, h2, by simpa using hperm.length_eq⟩

/-- C3 at the demo: three observers on `keepgoing`, unsubscribed first, second, third; after
two calls the teardown log is empty, after the third it has one entry. -/
theorem shared_teardown_timing_witness :
    (unsubscribeAll ⟨[demoObserver 1, demoObserver 2, demoObserver 3], true, keepgoing,
        some ⟨⟨0⟩⟩⟩ ⟨[], 1, []⟩ [⟨demoObserver 1⟩, ⟨demoObserver 2⟩]).2.2.teardowns = [] ∧
      (unsubscribeAll ⟨[demoObserver 1, demoObserver 2, demoObserver 3], true, keepgoing,
        some ⟨⟨0⟩⟩⟩ ⟨[], 1, []⟩
        [⟨demoObserver 1⟩, ⟨demoObserver 2⟩, ⟨demoObserver 3⟩]).2.2.teardowns = [0] := by
  have h := shared_teardown_timing keepgoing World.empty ⟨[], 1, []⟩
    [demoObserver 1, demoObserver 2, demoObserver 3]
    [⟨demoObserver 1⟩, ⟨demoObserver 2⟩, ⟨demoObserver 3⟩]
    [⟨demoObserver 1⟩, ⟨demoObserver 2⟩, ⟨demoObserver 3⟩]
    ⟨[demoObserver 1, demoObserver 2, demoObserver 3], true, keepgoing, some ⟨⟨0⟩⟩⟩
    (by decide) (by decide) rfl (List.Perm.refl _)
  obtain ⟨s2, h2, _⟩ := h 2 (by decide)
  obtain ⟨s3, h3, _⟩ := h 3 (by decide)
  constructor
  · have : List.take 2 [(⟨demoObserver 1⟩ : Handle), ⟨demoObserver 2⟩, ⟨demoObserver 3⟩] =
        [⟨demoObserver 1⟩, ⟨demoObserver 2⟩] := rfl
    rw [this] at h2
    rw [h2]
    rfl
  · have : List.take 3 [(⟨demoObserver 1⟩ : Handle), ⟨demoObserver 2⟩, ⟨demoObserver 3⟩] =
        [⟨demoObserver 1⟩, ⟨demoObserver 2⟩, ⟨demoObserver 3⟩] := rfl
    rw [this] at h3
    rw [h3]
    rfl

/-- C4, as stated, fails: with three demo observers subscribed one after another to a
SharedObservable over `onetwothree`, all three calls return normally, the first observer has
received 1, 2, 3, complete, and the second and the third have received nothing. -/
theorem fan_out_counterexample :
    (subscribeAll (SharedObservable.new onetwothree) World.empty
        [demoObserver 1, demoObserver 2, demoObserver 3]).1 =
        .normal [⟨demoObserver 1⟩, ⟨demoObserver 2⟩, ⟨demoObserver 3⟩] ∧
      (subscribeAll (SharedObservable.new onetwothree) World.empty
        [demoObserver 1, demoObserver 2, demoObserver 3]).2.2.received (demoObserver 1) =
        [.next 1, .next 2, .next 3, .complete] ∧
      (subscribeAll (SharedObservable.new onetwothree) World.empty
        [demoObserver 1, demoObserver 2, demoObserver 3]).2.2.received (demoObserver 2) = [] ∧
      (subscribeAll (SharedObservable.new onetwothree) World.empty
        [demoObserver 1, demoObserver 2, demoObserver 3]).2.2.received (demoObserver 3) = [] := by
  decide

theorem World.received_append (w : World) (o : Observer) (l : List (Observer × Event)) :
    World.received { w with log := w.log ++ l } o =
      w.received o ++ (l.filter (fun d => decide (d.1 = o))).map Prod.snd := by
  simp [World.received]

/-- C4, amended: when three observers are subscribed one after another to a fresh
SharedObservable over `onetwothree`, the first of them carrying `next` and `complete` and the
other two being different objects, all three calls return normally, the whole sequence 1, 2, 3,
complete is delivered to the first observer, and nothing is delivered to the second and the
third. -/
theorem fan_out_first_only (a b c : Observer) (w : World)
    (hn : a.hasNext = true) (hc : a.hasComplete = true) (hb : b ≠ a) (hcne : c ≠ a) :
    ∃ s w1, subscribeAll (SharedObservable.new onetwothree) w [a, b, c] =
        (.normal [⟨a⟩, ⟨b⟩, ⟨c⟩], s, w1) ∧
      w1.received a = w.received a ++ [.next 1, .next 2, .next 3, .complete] ∧
      w1.received b = w.received b ∧ w1.received c = w.received c ∧
      w1.activations = w.activations + 1 := by
  have h1 : (SharedObservable.new onetwothree).subscribe a w =
      (.normal ⟨a⟩, ⟨[a], true, onetwothree, some ⟨⟨w.activations⟩⟩⟩,
        { w with
          log := w.log ++ [(a, .next 1), (a, .next 2), (a, .next 3), (a, .complete)]
          activations := w.activations + 1 }) := by
    simp [SharedObservable.subscribe, SharedObservable.new, setAdd, Observable.subscribe,
      Producer.invoke, onetwothree, onetwothreeFn, emitAll, broadcast, Observer.call,
      Observer.implements, hn, hc]
  obtain ⟨h2, _, _⟩ := subscribeAll_new onetwothree w a [b, c] ⟨a⟩ (by rw [h1])
  rw [h1] at h2
  refine ⟨_, _, h2, ?_, ?_, ?_, rfl⟩
  · simp [World.received]
  · simp [World.received, hb.symm]
  · simp [World.received, hcne.symm]

/-- The amended C4 at the three demo observers. -/
theorem fan_out_first_only_witness :
    ∃ s w1, subscribeAll (SharedObservable.new onetwothree) World.empty
        [demoObserver 1, demoObserver 2, demoObserver 3] =
        (.normal [⟨demoObserver 1⟩, ⟨demoObserver 2⟩, ⟨demoObserver 3⟩], s, w1) ∧
      w1.received (demoObserver 1) =
        World.empty.received (demoObserver 1) ++ [.next 1, .next 2, .next 3, .complete] ∧
      w1.received (demoObserver 2) = World.empty.received (demoObserver 2) ∧
      w1.received (demoObserver 3) = World.empty.received (demoObserver 3) ∧
      w1.activations = World.empty.activations + 1 :=
  fan_out_first_only (demoObserver 1) (demoObserver 2) (demoObserver 3) World.empty rfl rfl
    (by decide) (by decide)

/-- C5, as stated, fails: with one demo observer on `keepgoing`, the first unsubscribe removes
the last observer and invokes the upstream teardown once; the second unsubscribe on the same
handle returns normally, leaves the set empty, and invokes the upstream teardown a second
time. -/
theorem shared_unsubscribe_twice_counterexample :
    single.1 = .normal ⟨demoObserver 1⟩ ∧
      (single.2.1.unsubscribe ⟨demoObserver 1⟩ single.2.2).2.1.subscribers = [] ∧
      (single.2.1.unsubscribe ⟨demoObserver 1⟩ single.2.2).2.2.teardowns = [0] ∧
      ((single.2.1.unsubscribe ⟨demoObserver 1⟩ single.2.2).2.1.unsubscribe ⟨demoObserver 1⟩
        (single.2.1.unsubscribe ⟨demoObserver 1⟩ single.2.2).2.2).1 = .normal () ∧
      ((single.2.1.unsubscribe ⟨demoObserver 1⟩ single.2.2).2.1.unsubscribe ⟨demoObserver 1⟩
        (single.2.1.unsubscribe ⟨demoObserver 1⟩ single.2.2).2.2).2.2.teardowns = [0, 0] := by
  decide

/-- C5, amended: on a component whose upstream handle is stored (as it is once any subscribe
has returned a handle), a second call to the same handle's unsubscribe returns normally and
leaves the component, the observer set included, unchanged; when observers remain it leaves the
world unchanged too, and when the set is empty it calls the upstream handle once more, so that
after a first call that removed the last observer the upstream teardown has been invoked twice
by the two calls. -/
theorem shared_unsubscribe_twice (s : SharedObservable) (h : Handle) (w : World)
    (d : Disposable) (hnd : s.subscribers.Nodup) (hc : s.cancel = some d) :
    (s.unsubscribe h w).1 = .normal () ∧
      ((s.unsubscribe h w).2.1.unsubscribe h (s.unsubscribe h w).2.2).1 = .normal () ∧
      ((s.unsubscribe h w).2.1.unsubscribe h (s.unsubscribe h w).2.2).2.1 =
        (s.unsubscribe h w).2.1 ∧
      ((s.unsubscribe h w).2.1.unsubscribe h (s.unsubscribe h w).2.2).2.2 =
        (if (s.unsubscribe h w).2.1.subscribers = [] then d.call (s.unsubscribe h w).2.2
          else (s.unsubscribe h w).2.2) ∧
      ((s.unsubscribe h w).2.1.subscribers = [] →
        ((s.unsubscribe h w).2.1.unsubscribe h (s.unsubscribe h w).2.2).2.2.teardowns =
          w.teardowns ++ [d.unsubscribe.activation, d.unsubscribe.activation]) := by
  obtain ⟨S, st, inner, c⟩ := s
  simp only at hnd hc
  subst hc
  have he : (S.erase h.subscriber).erase h.subscriber = S.erase h.subscriber :=
    List.erase_of_not_mem (hnd.not_mem_erase)
  by_cases hz : S.erase h.subscriber = []
  · simp [SharedObservable.unsubscribe, setDelete, hz, Disposable.call, Teardown.invoke]
  · simp [SharedObservable.unsubscribe, setDelete, hz, he]

/-- The amended C5 at the demo with one observer. -/
theorem shared_unsubscribe_twice_witness :
    ((single.2.1.unsubscribe ⟨demoObserver 1⟩ single.2.2).2.1.unsubscribe ⟨demoObserver 1⟩
        (single.2.1.unsubscribe ⟨demoObserver 1⟩ single.2.2).2.2).2.1 =
      (single.2.1.unsubscribe ⟨demoObserver 1⟩ single.2.2).2.1 :=
  (shared_unsubscribe_twice single.2.1 ⟨demoObserver 1⟩ single.2.2 ⟨⟨0⟩⟩ (by decide) rfl).2.2.1

theorem Disposable.callTimes_eq (d : Disposable) (k : Nat) (w : World) :
    d.callTimes k w =
      { w with teardowns := w.teardowns ++ List.replicate k d.unsubscribe.activation } := by
  induction k generalizing w with
  | zero => simp [Disposable.callTimes]
  | succ k ih =>
    simp [Disposable.callTimes, ih, Disposable.call, Teardown.invoke, List.replicate_succ]

/-- A subscribe call on an Observable that returns normally: the producer body ran to its
`return`, and the Disposable holds the teardown of this activation. -/
theorem Observable.subscribe_normal (obs : Observable) (subscriber : Subscriber) (w w1 : World)
    (d : Disposable) (hr : obs.subscribe subscriber w = (.normal d, w1)) :
    d = ⟨⟨w.activations⟩⟩ ∧ (obs.subscriberFn w.activations).throws = none ∧
      emitAll subscriber (obs.subscriberFn w.activations).emits
        { w with activations := w.activations + 1 } = (.normal (), w1) := by
  simp only [Observable.subscribe, Producer.invoke] at hr
  rcases he : emitAll subscriber (obs.subscriberFn w.activations).emits
    { w with activations := w.activations + 1 } with ⟨c, w2⟩
  rw [he] at hr
  cases c with
  | throw err => simp at hr
  | normal v =>
    cases ht : (obs.subscriberFn w.activations).throws with
    | some err => simp [ht] at hr
    | none =>
      simp [ht] at hr
      exact ⟨hr.1.symm, rfl, by rw [hr.2]⟩

/-- C6, as stated, fails: subscribing a demo observer to `onetwothree` returns a Disposable, and
calling its unsubscribe twice invokes the producer's teardown twice. -/
theorem observable_unsubscribe_twice_counterexample :
    (onetwothree.subscribe (demoObserver 1).call World.empty).1 = .normal ⟨⟨0⟩⟩ ∧
      (onetwothree.subscribe (demoObserver 1).call World.empty).2.teardowns = [] ∧
      (Disposable.callTimes ⟨⟨0⟩⟩ 2
        (onetwothree.subscribe (demoObserver 1).call World.empty).2).teardowns = [0, 0] := by
  decide

/-- C6, amended: for every producer and subscriber, when `Observable.subscribe` returns a
Disposable, it carries the teardown of that activation, and calling its unsubscribe `k` times
invokes that teardown `k` times, once per call, and changes nothing else. -/
theorem observable_unsubscribe_repeated (obs : Observable) (subscriber : Subscriber)
    (w w1 : World) (d : Disposable) (k : Nat)
    (hr : obs.subscribe subscriber w = (.normal d, w1)) :
    d = ⟨⟨w.activations⟩⟩ ∧
      d.callTimes k w1 =
        { w1 with teardowns := w1.teardowns ++ List.replicate k w.activations } ∧
      (d.callTimes k w1).teardowns.length = w1.teardowns.length + k := by
  have hd : d = ⟨⟨w.activations⟩⟩ := (Observable.subscribe_normal obs subscriber w w1 d hr).1
  subst hd
  refine ⟨rfl, Disposable.callTimes_eq _ k w1, ?_⟩
  rw [Disposable.callTimes_eq]
  simp

/-- The amended C6 at `onetwothree` with a demo observer and two calls. -/
theorem observable_unsubscribe_repeated_witness :
    (Disposable.callTimes ⟨⟨0⟩⟩ 2
        (onetwothree.subscribe (demoObserver 1).call World.empty).2).teardowns.length =
      (onetwothree.subscribe (demoObserver 1).call World.empty).2.teardowns.length + 2 :=
  (observable_unsubscribe_repeated onetwothree (demoObserver 1).call World.empty
    (onetwothree.subscribe (demoObserver 1).call World.empty).2 ⟨⟨0⟩⟩ 2 rfl).2.2

theorem Observer.call_of_implements (o : Observer) (e : Event) (w : World)
    (h : o.implements e = true) :
    o.call e w = (.normal (), { w with log := w.log ++ [(o, e)] }) := by
  simp [Observer.call, h]

theorem Observer.call_of_missing (o : Observer) (e : Event) (w : World)
    (h : o.implements e = false) : o.call e w = (.throw .typeError, w) := by
  simp [Observer.call, h]

/-- The broadcast loop over observers that all carry the callback. -/
theorem broadcast_of_implements (S : List Observer) (e : Event) (w : World)
    (h : ∀ x ∈ S, x.implements e = true) :
    broadcast S e w = (.normal (), { w with log := w.log ++ S.map (fun x => (x, e)) }) := by
  induction S generalizing w with
  | nil => simp [broadcast]
  | cons x S ih =>
    unfold broadcast
    rw [Observer.call_of_implements x e w (h x (List.mem_cons_self x S))]
    simp only
    rw [ih _ (fun y hy => h y (List.mem_cons_of_mem x hy))]
    simp

/-- The broadcast loop stops at the first observer that lacks the callback. -/
theorem broadcast_of_missing (pre post : List Observer) (o : Observer) (e : Event) (w : World)
    (hpre : ∀ x ∈ pre, x.implements e = true) (hmiss : o.implements e = false) :
    broadcast (pre ++ o :: post) e w =
      (.throw .typeError, { w with log := w.log ++ pre.map (fun x => (x, e)) }) := by
  induction pre generalizing w with
  | nil => simp [broadcast, Observer.call_of_missing o e w hmiss]
  | cons x pre ih =>
    simp only [List.cons_append]
    unfold broadcast
    rw [Observer.call_of_implements x e w (hpre x (List.mem_cons_self x pre))]
    simp only
    rw [ih _ (fun y hy => hpre y (List.mem_cons_of_mem x hy))]
    simp

/-- A producer body pushing events into an observer that carries every callback it calls. -/
theorem emitAll_call_of_implements (o : Observer) (es : List Event) (w : World)
    (h : ∀ x ∈ es, o.implements x = true) :
    emitAll o.call es w = (.normal (), { w with log := w.log ++ es.map (fun x => (o, x)) }) := by
  induction es generalizing w with
  | nil => simp [emitAll]
  | cons x es ih =>
    unfold emitAll
    rw [Observer.call_of_implements o x w (h x (List.mem_cons_self x es))]
    simp only
    rw [ih _ (fun y hy => h y (List.mem_cons_of_mem x hy))]
    simp

/-- A producer body stops at the first call of a callback its observer lacks. -/
theorem emitAll_call_of_missing (o : Observer) (es1 es2 : List Event) (e : Event) (w : World)
    (h : ∀ x ∈ es1, o.implements x = true) (hmiss : o.implements e = false) :
    emitAll o.call (es1 ++ e :: es2) w =
      (.throw .typeError, { w with log := w.log ++ es1.map (fun x => (o, x)) }) := by
  induction es1 generalizing w with
  | nil => simp [emitAll, Observer.call_of_missing o e w hmiss]
  | cons x es1 ih =>
    simp only [List.cons_append]
    unfold emitAll
    rw [Observer.call_of_implements o x w (h x (List.mem_cons_self x es1))]
    simp only
    rw [ih _ (fun y hy => h y (List.mem_cons_of_mem x hy))]
    simp

/-- C7, as stated, fails: a producer that calls `subscriber.error(7)` on a demo observer (no
`error` callback) makes `Observable.subscribe` throw a TypeError; and the broadcast of `error(7)`
to a demo observer followed by a full observer throws a TypeError at the first, so the second,
which carries the callback, does not receive the event. -/
theorem partial_observer_counterexample :
    (Observable.subscribe ⟨failingFn⟩ (demoObserver 1).call World.empty).1 =
        .throw .typeError ∧
      (SharedObservable.deliver ⟨[demoObserver 1, fullObserver 2], true, keepgoing, some ⟨⟨0⟩⟩⟩
        (.error 7) ⟨[], 1, []⟩).1 = .throw .typeError ∧
      (SharedObservable.deliver ⟨[demoObserver 1, fullObserver 2], true, keepgoing, some ⟨⟨0⟩⟩⟩
        (.error 7) ⟨[], 1, []⟩).2.received (fullObserver 2) = [] := by
  decide

/-- C7, amended: calling a callback that the observer omits throws a TypeError and delivers
nothing to it. In the broadcast loop the TypeError leaves the loop: the observers before the
partial one in iteration order have received the event, it and the observers after it have not.
In an Observable the TypeError leaves the producer and `subscribe`: the events before the
missing callback have been delivered, no Disposable is returned. An event whose callback the
observer carries is delivered to it normally. -/
theorem partial_observer_throws (o : Observer) (e : Event) (w : World)
    (s : SharedObservable) (pre post : List Observer) (p : Producer) (es1 es2 : List Event)
    (hmiss : o.implements e = false)
    (hs : s.subscribers = pre ++ o :: post) (hpre : ∀ x ∈ pre, x.implements e = true)
    (hp : (p w.activations).emits = es1 ++ e :: es2) (hes : ∀ x ∈ es1, o.implements x = true) :
    o.call e w = (.throw .typeError, w) ∧
      s.deliver e w =
        (.throw .typeError, { w with log := w.log ++ pre.map (fun x => (x, e)) }) ∧
      Observable.subscribe ⟨p⟩ o.call w =
        (.throw .typeError,
          { w with
            log := w.log ++ es1.map (fun x => (o, x))
            activations := w.activations + 1 }) ∧
      ∀ e2 : Event, o.implements e2 = true →
        o.call e2 w = (.normal (), { w with log := w.log ++ [(o, e2)] }) := by
  refine ⟨Observer.call_of_missing o e w hmiss, ?_, ?_, ?_⟩
  · rw [SharedObservable.deliver, hs]
    exact broadcast_of_missing pre post o e w hpre hmiss
  · simp only [Observable.subscribe, Producer.invoke, hp]
    rw [emitAll_call_of_missing o es1 es2 e _ hes hmiss]
  · intro e2 h2
    exact Observer.call_of_implements o e2 w h2

/-- The amended C7 at a demo observer and `error(7)`: behind a full observer in the set, and
after `next(1)` in the producer. -/
theorem partial_observer_throws_witness :
    (demoObserver 1).call (.error 7) World.empty = (.throw .typeError, World.empty) ∧
      SharedObservable.deliver ⟨[fullObserver 2, demoObserver 1], true, keepgoing, some ⟨⟨0⟩⟩⟩
          (.error 7) World.empty =
        (.throw .typeError, ⟨[(fullObserver 2, .error 7)], 0, []⟩) ∧
      Observable.subscribe ⟨fun _ => ⟨[.next 1, .error 7, .complete], none⟩⟩
          (demoObserver 1).call World.empty =
        (.throw .typeError, ⟨[(demoObserver 1, .next 1)], 1, []⟩) := by
  have h := partial_observer_throws (demoObserver 1) (.error 7) World.empty
    ⟨[fullObserver 2, demoObserver 1], true, keepgoing, some ⟨⟨0⟩⟩⟩ [fullObserver 2] []
    (fun _ => ⟨[.next 1, .error 7, .complete], none⟩) [.next 1] [.complete]
    rfl rfl (by decide) rfl (by decide)
  exact ⟨h.1, h.2.1, h.2.2.1⟩

/-- What `Observable.subscribe` does to the world when the observer carries every callback the
producer calls: one more activation, the producer's events delivered to this observer. -/
theorem Observable.subscribe_world (p : Producer) (o : Observer) (w : World)
    (h : ∀ x ∈ (p w.activations).emits, o.implements x = true) :
    (Observable.subscribe ⟨p⟩ o.call w).2 =
      { w with
        log := w.log ++ (p w.activations).emits.map (fun x => (o, x))
        activations := w.activations + 1 } := by
  simp only [Observable.subscribe, Producer.invoke]
  rw [emitAll_call_of_implements o _ _ h]
  cases (p w.activations).throws <;> rfl

theorem received_map_self (o : Observer) (es : List Event) :
    ((es.map (fun x => (o, x))).filter (fun d => decide (d.1 = o))).map Prod.snd = es := by
  induction es with
  | nil => rfl
  | cons e es ih => simp [List.filter_cons, ih]

theorem received_map_other (o a : Observer) (es : List Event) (h : a ≠ o) :
    ((es.map (fun x => (a, x))).filter (fun d => decide (d.1 = o))).map Prod.snd = [] := by
  induction es with
  | nil => rfl
  | cons e es ih => simp [List.filter_cons, h]

/-- C9: `Observable.subscribe` takes and returns no state of the Observable. For a producer
whose body is the same at every invocation, two subscribe calls with different observers that
carry the callbacks the producer calls each invoke the producer once; the first delivers the
producer's events to the first observer only, the second delivers the same events to the second
observer only. For `onetwothree` and two observers carrying `next` and `complete`, each
receives exactly 1, 2, 3, complete. -/
theorem cold_replay (p : Producer) (sc : Script) (a b : Observer) (w : World)
    (hdet : ∀ n, p n = sc) (hab : a ≠ b)
    (ha : ∀ x ∈ sc.emits, a.implements x = true) (hb : ∀ x ∈ sc.emits, b.implements x = true) :
    (Observable.subscribe ⟨p⟩ a.call w).2 =
        { w with
          log := w.log ++ sc.emits.map (fun x => (a, x))
          activations := w.activations + 1 } ∧
      (Observable.subscribe ⟨p⟩ b.call (Observable.subscribe ⟨p⟩ a.call w).2).2 =
        { w with
          log := (w.log ++ sc.emits.map (fun x => (a, x))) ++ sc.emits.map (fun x => (b, x))
          activations := w.activations + 2 } ∧
      (Observable.subscribe ⟨p⟩ b.call (Observable.subscribe ⟨p⟩ a.call w).2).2.received a =
        w.received a ++ sc.emits ∧
      (Observable.subscribe ⟨p⟩ b.call (Observable.subscribe ⟨p⟩ a.call w).2).2.received b =
        w.received b ++ sc.emits ∧
      (a.hasNext = true → a.hasComplete = true → b.hasNext = true → b.hasComplete = true →
        (onetwothree.subscribe b.call (onetwothree.subscribe a.call World.empty).2).2.received a
            = [.next 1, .next 2, .next 3, .complete] ∧
          (onetwothree.subscribe b.call (onetwothree.subscribe a.call World.empty).2).2.received b
            = [.next 1, .next 2, .next 3, .complete]) := by
  have key : ∀ (q : Producer) (t : Script), (∀ n, q n = t) →
      (∀ x ∈ t.emits, a.implements x = true) → (∀ x ∈ t.emits, b.implements x = true) →
      ∀ v : World,
      (Observable.subscribe ⟨q⟩ a.call v).2 =
        { v with
          log := v.log ++ t.emits.map (fun x => (a, x))
          activations := v.activations + 1 } ∧
      (Observable.subscribe ⟨q⟩ b.call (Observable.subscribe ⟨q⟩ a.call v).2).2 =
        { v with
          log := (v.log ++ t.emits.map (fun x => (a, x))) ++ t.emits.map (fun x => (b, x))
          activations := v.activations + 2 } := by
    intro q t hq hqa hqb v
    have h1 := Observable.subscribe_world q a v (by rw [hq]; exact hqa)
    rw [hq] at h1
    refine ⟨h1, ?_⟩
    rw [h1]
    have h2 := Observable.subscribe_world q b
      { v with
        log := v.log ++ t.emits.map (fun x => (a, x))
        activations := v.activations + 1 } (by rw [hq]; exact hqb)
    rw [hq] at h2
    rw [h2]
  have recv : ∀ (v : World) (t : Script) (n : Nat),
      World.received
        { v with
          log := (v.log ++ t.emits.map (fun x => (a, x))) ++ t.emits.map (fun x => (b, x))
          activations := n } a = v.received a ++ t.emits ∧
      World.received
        { v with
          log := (v.log ++ t.emits.map (fun x => (a, x))) ++ t.emits.map (fun x => (b, x))
          activations := n } b = v.received b ++ t.emits := by
    intro v t n
    simp only [World.received, List.filter_append, List.map_append]
    rw [received_map_self a, received_map_self b, received_map_other a b _ hab.symm,
      received_map_other b a _ hab]
    simp
  obtain ⟨k1, k2⟩ := key p sc hdet ha hb w
  refine ⟨k1, k2, ?_, ?_, ?_⟩
  · rw [k2]; exact (recv w sc _).1
  · rw [k2]; exact (recv w sc _).2
  · intro a1 a2 b1 b2
    have hoa : ∀ x ∈ (onetwothreeFn 0).emits, a.implements x = true := by
      intro x hx
      simp [onetwothreeFn] at hx
      rcases hx with rfl | rfl | rfl | rfl <;> simp [Observer.implements, a1, a2]
    have hob : ∀ x ∈ (onetwothreeFn 0).emits, b.implements x = true := by
      intro x hx
      simp [onetwothreeFn] at hx
      rcases hx with rfl | rfl | rfl | rfl <;> simp [Observer.implements, b1, b2]
    obtain ⟨_, o2⟩ := key onetwothreeFn (onetwothreeFn 0) (fun _ => rfl) hoa hob World.empty
    have o3 : (onetwothree.subscribe b.call (onetwothree.subscribe a.call World.empty).2).2 = _ :=
      o2
    rw [o3]
    have r := recv World.empty (onetwothreeFn 0) (World.empty.activations + 2)
    constructor
    · rw [r.1]; rfl
    · rw [r.2]; rfl

/-- C9 at `onetwothree` and two demo observers. -/
theorem cold_replay_witness :
    (onetwothree.subscribe (demoObserver 2).call
        (onetwothree.subscribe (demoObserver 1).call World.empty).2).2 =
      ⟨[(demoObserver 1, .next 1), (demoObserver 1, .next 2), (demoObserver 1, .next 3),
          (demoObserver 1, .complete), (demoObserver 2, .next 1), (demoObserver 2, .next 2),
          (demoObserver 2, .next 3), (demoObserver 2, .complete)], 2, []⟩ :=
  (cold_replay onetwothreeFn ⟨[.next 1, .next 2, .next 3, .complete], none⟩ (demoObserver 1)
    (demoObserver 2) World.empty (fun _ => rfl) (by decide) (by decide) (by decide)).2.1

theorem received_broadcast (S : List Observer) (o : Observer) (e : Event) (h : S.Nodup) :
    ((S.map (fun x => (x, e))).filter (fun d => decide (d.1 = o))).map Prod.snd =
      if o ∈ S then [e] else [] := by
  induction S with
  | nil => rfl
  | cons x S ih =>
    obtain ⟨hx, hS⟩ := List.nodup_cons.mp h
    by_cases hxo : x = o
    · subst hxo
      have := ih hS
      simp only [hx, if_false] at this
      simp [List.filter_cons, this]
    · have hox : ¬ o = x := fun h2 => hxo h2.symm
      simp [List.filter_cons, hxo, hox, ih hS]

/-- One upstream event broadcast to a set of observers that all carry its callback. -/
theorem SharedObservable.deliver_of_implements (s : SharedObservable) (e : Event) (w : World)
    (hnd : s.subscribers.Nodup) (h : ∀ x ∈ s.subscribers, x.implements e = true) :
    s.deliver e w =
        (.normal (), { w with log := w.log ++ s.subscribers.map (fun x => (x, e)) }) ∧
      ∀ o, (s.deliver e w).2.received o =
        w.received o ++ if o ∈ s.subscribers then [e] else [] := by
  have h1 := broadcast_of_implements s.subscribers e w h
  refine ⟨h1, ?_⟩
  intro o
  rw [SharedObservable.deliver, h1]
  simp only [World.received, List.filter_append, List.map_append]
  rw [received_broadcast s.subscribers o e hnd]

/-- What each observer has received after a sequence of broadcasts to a set of observers that
all carry the callbacks. -/
theorem deliverAll_received_of_implements (s : SharedObservable) (es : List Event) (w : World)
    (hnd : s.subscribers.Nodup)
    (himp : ∀ e ∈ es, ∀ x ∈ s.subscribers, x.implements e = true) :
    ∀ o, (s.deliverAll es w).2.received o =
      w.received o ++ if o ∈ s.subscribers then es else [] := by
  intro o
  induction es generalizing w with
  | nil => simp [SharedObservable.deliverAll, emitAll]
  | cons e es ih =>
    have h0 := SharedObservable.deliver_of_implements s e w hnd
      (himp e (List.mem_cons_self e es))
    have h2 := h0.2 o
    have h1 := h0.1
    rw [h1] at h2
    simp only [SharedObservable.deliverAll, emitAll, h1]
    have := ih { w with log := w.log ++ s.subscribers.map (fun x => (x, e)) }
      (fun e2 he2 => himp e2 (List.mem_cons_of_mem e he2))
    simp only [SharedObservable.deliverAll] at this
    rw [this, h2]
    by_cases ho : o ∈ s.subscribers <;> simp [ho]

/-- C10, as stated, fails: with the observer set holding two demo observers (no `error`
callback) and then a full observer, the broadcast of `next(5)` reaches all three, but the
broadcast of `error(7)` throws a TypeError at the first observer, and no observer of the set,
the full one included, receives the event. -/
theorem broadcast_delivery_counterexample :
    (SharedObservable.deliver
        ⟨[demoObserver 1, demoObserver 2, fullObserver 3], true, keepgoing, some ⟨⟨0⟩⟩⟩
        (.next 5) ⟨[], 1, []⟩).2.received (fullObserver 3) = [.next 5] ∧
      (SharedObservable.deliver
        ⟨[demoObserver 1, demoObserver 2, fullObserver 3], true, keepgoing, some ⟨⟨0⟩⟩⟩
        (.error 7) ⟨[], 1, []⟩).1 = .throw .typeError ∧
      (SharedObservable.deliver
        ⟨[demoObserver 1, demoObserver 2, fullObserver 3], true, keepgoing, some ⟨⟨0⟩⟩⟩
        (.error 7) ⟨[], 1, []⟩).2.received (fullObserver 3) = [] ∧
      (SharedObservable.deliver
        ⟨[demoObserver 1, demoObserver 2, fullObserver 3], true, keepgoing, some ⟨⟨0⟩⟩⟩
        (.error 7) ⟨[], 1, []⟩).2.log = [] := by
  decide

/-- C10, amended: when the upstream emits events one after another while the observer set is
`S` and every observer in `S` carries the callbacks of these events, every broadcast returns
normally, the component is not touched, every observer in `S` receives each event once, with
its payload, in the order of emission, and an observer outside `S` receives nothing; within one
event the deliveries follow the iteration order of the set. -/
theorem broadcast_delivery (s : SharedObservable) (es : List Event) (w : World)
    (hnd : s.subscribers.Nodup)
    (himp : ∀ e ∈ es, ∀ x ∈ s.subscribers, x.implements e = true) :
    (s.deliverAll es w).1 = .normal () ∧
      (∀ o, (s.deliverAll es w).2.received o =
        w.received o ++ if o ∈ s.subscribers then es else []) ∧
      (s.deliverAll es w).2.activations = w.activations ∧
      (s.deliverAll es w).2.teardowns = w.teardowns ∧
      (∀ e ∈ es, ∀ v : World,
        s.deliver e v =
          (.normal (), { v with log := v.log ++ s.subscribers.map (fun x => (x, e)) })) := by
  refine ⟨?_, ?_, ?_⟩
  · induction es generalizing w with
    | nil => simp [SharedObservable.deliverAll, emitAll]
    | cons e es ih =>
      have h1 := (SharedObservable.deliver_of_implements s e w hnd
        (himp e (List.mem_cons_self e es))).1
      simp only [SharedObservable.deliverAll, emitAll, h1]
      exact ih _ (fun e2 he2 => himp e2 (List.mem_cons_of_mem e he2))
  · exact deliverAll_received_of_implements s es w hnd himp
  · refine ⟨?_, ?_, ?_⟩
    · induction es generalizing w with
      | nil => simp [SharedObservable.deliverAll, emitAll]
      | cons e es ih =>
        have h1 := (SharedObservable.deliver_of_implements s e w hnd
          (himp e (List.mem_cons_self e es))).1
        simp only [SharedObservable.deliverAll, emitAll, h1]
        have := ih { w with log := w.log ++ s.subscribers.map (fun x => (x, e)) }
          (fun e2 he2 => himp e2 (List.mem_cons_of_mem e he2))
        simp only [SharedObservable.deliverAll] at this
        rw [this]
    · induction es generalizing w with
      | nil => simp [SharedObservable.deliverAll, emitAll]
      | cons e es ih =>
        have h1 := (SharedObservable.deliver_of_implements s e w hnd
          (himp e (List.mem_cons_self e es))).1
        simp only [SharedObservable.deliverAll, emitAll, h1]
        have := ih { w with log := w.log ++ s.subscribers.map (fun x => (x, e)) }
          (fun e2 he2 => himp e2 (List.mem_cons_of_mem e he2))
        simp only [SharedObservable.deliverAll] at this
        rw [this]
    · intro e he v
      exact (SharedObservable.deliver_of_implements s e v hnd (himp e he)).1

/-- The amended C10 at two full observers in the set, one outside, and the events `next(5)`, `error(7)`. -/
theorem broadcast_delivery_witness :
    (SharedObservable.deliverAll ⟨[fullObserver 1, fullObserver 2], true, keepgoing, some ⟨⟨0⟩⟩⟩
        [.next 5, .error 7] ⟨[], 1, []⟩).1 = .normal () ∧
      (SharedObservable.deliverAll ⟨[fullObserver 1, fullObserver 2], true, keepgoing,
        some ⟨⟨0⟩⟩⟩ [.next 5, .error 7] ⟨[], 1, []⟩).2.received (fullObserver 2) =
        [.next 5, .error 7] ∧
      (SharedObservable.deliverAll ⟨[fullObserver 1, fullObserver 2], true, keepgoing,
        some ⟨⟨0⟩⟩⟩ [.next 5, .error 7] ⟨[], 1, []⟩).2.received (fullObserver 3) = [] := by
  have h := broadcast_delivery ⟨[fullObserver 1, fullObserver 2], true, keepgoing, some ⟨⟨0⟩⟩⟩
    [.next 5, .error 7] ⟨[], 1, []⟩ (by decide) (by decide)
  refine ⟨h.1, ?_, ?_⟩
  · rw [h.2.1 (fullObserver 2)]; decide
  · rw [h.2.1 (fullObserver 3)]; decide

theorem setAdd_nodup (S : List Observer) (o : Observer) (h : S.Nodup) : (setAdd S o).Nodup := by
  unfold setAdd
  split
  · exact h
  · rename_i hno
    exact List.nodup_append.mpr ⟨h, List.nodup_singleton o, by
      intro a ha hb
      simp at hb
      subst hb
      exact hno ha⟩

theorem setAdd_ne_nil (S : List Observer) (o : Observer) : setAdd S o ≠ [] := by
  unfold setAdd
  split
  · rename_i hm
    exact List.ne_nil_of_mem hm
  · simp

/-- What holds in every reachable state of a SharedObservable. -/
theorem Reachable.invariant {inner : Observable} {w0 w : World} {s : SharedObservable}
    {hs : List Handle} (hr : Reachable inner w0 s w hs) :
    (s.inner = inner ∧ s.subscribers.Nodup) ∧
      (s.started = false → s = SharedObservable.new inner ∧ w = w0 ∧ hs = []) ∧
      (s.started = true →
        s.cancel = some ⟨⟨w0.activations⟩⟩ ∧ w.activations = w0.activations + 1) ∧
      ∃ n, w.teardowns = w0.teardowns ++ List.replicate n w0.activations ∧
        (n = 0 → s.started = true → s.subscribers ≠ []) := by
  induction hr with
  | init =>
    refine ⟨⟨rfl, List.nodup_nil⟩, fun _ => ⟨rfl, rfl, rfl⟩, ?_, 0, by simp, ?_⟩
    · intro h; simp [SharedObservable.new] at h
    · intro _ h; simp [SharedObservable.new] at h
  | @subscribe s w hs o h s1 w1 _ heq ih =>
    obtain ⟨⟨hA1, hA2⟩, hB, hC, n, hD1, hD2⟩ := ih
    cases hst : s.started with
    | true =>
      rw [SharedObservable.subscribe_of_started s o w hst] at heq
      simp only [Prod.mk.injEq, Completion.normal.injEq] at heq
      obtain ⟨_, e2, e3⟩ := heq
      subst e2 e3
      refine ⟨⟨hA1, setAdd_nodup _ o hA2⟩, ?_, fun _ => hC hst, n, hD1, ?_⟩
      · intro hf
        simp [hst] at hf
      · intro _ _
        exact setAdd_ne_nil _ o
    | false =>
      obtain ⟨e1, e2, _⟩ := hB hst
      subst e1 e2
      obtain ⟨_, k2, k3, k4⟩ := SharedObservable.subscribe_of_not_started
        (SharedObservable.new inner) o w rfl h s1 w1 heq
      subst k2
      refine ⟨⟨rfl, setAdd_nodup _ o List.nodup_nil⟩, ?_, fun _ => ⟨rfl, k3⟩, 0, by simpa using k4,
        fun _ _ => setAdd_ne_nil (SharedObservable.new inner).subscribers o⟩
      intro hf
      simp at hf
  | @unsubscribe s w hs h c s1 w1 _ hmem heq ih =>
    obtain ⟨⟨hA1, hA2⟩, hB, hC, n, hD1, hD2⟩ := ih
    have hst : s.started = true := by
      cases hst : s.started with
      | true => rfl
      | false =>
        have := (hB hst).2.2
        rw [this] at hmem
        simp at hmem
    obtain ⟨hc, hact⟩ := hC hst
    obtain ⟨S, st, inn, cn⟩ := s
    simp only at hA1 hA2 hst hc hD2
    subst hst hc hA1
    by_cases hz : S.erase h.subscriber = []
    · simp [SharedObservable.unsubscribe, setDelete, hz] at heq
      obtain ⟨_, e2, e3⟩ := heq
      subst e2 e3
      refine ⟨⟨rfl, List.nodup_nil⟩, ?_, ?_, n + 1, ?_, ?_⟩
      · intro hf; simp at hf
      · intro _
        exact ⟨rfl, by simpa [Disposable.call, Teardown.invoke] using hact⟩
      · simp [Disposable.call, Teardown.invoke, hD1, List.replicate_succ']
      · intro hf; simp at hf
    · simp [SharedObservable.unsubscribe, setDelete, hz] at heq
      obtain ⟨_, e2, e3⟩ := heq
      subst e2 e3
      refine ⟨⟨rfl, hA2.erase _⟩, ?_, fun _ => ⟨rfl, hact⟩, n, hD1, fun _ _ => hz⟩
      intro hf; simp at hf

/-- C8, as stated, fails: in the demo with one observer on `keepgoing`, after the subscribe and
the unsubscribe of its handle the observer set is empty while the started flag is still true
(the component is not back in its initial state); and after the next subscribe the set is
non-empty while one activation and one teardown have happened, which leaves no live
activation. -/
theorem state_invariant_counterexample :
    single.1 = .normal ⟨demoObserver 1⟩ ∧
      (single.2.1.unsubscribe ⟨demoObserver 1⟩ single.2.2).2.1.subscribers = [] ∧
      (single.2.1.unsubscribe ⟨demoObserver 1⟩ single.2.2).2.1.started = true ∧
      (subscribeAll drained.2.1 drained.2.2 [demoObserver 3]).1 = .normal [⟨demoObserver 3⟩] ∧
      (subscribeAll drained.2.1 drained.2.2 [demoObserver 3]).2.1.subscribers =
        [demoObserver 3] ∧
      (subscribeAll drained.2.1 drained.2.2 [demoObserver 3]).2.2.activations = 1 ∧
      (subscribeAll drained.2.1 drained.2.2 [demoObserver 3]).2.2.teardowns.length = 1 := by
  decide

/-- C8, amended: in every state reachable from a fresh component by subscribe calls that
return normally and unsubscribe calls on handles not yet unsubscribed, a non-empty observer set
implies that the started flag is set; the flag is unset only in the initial state and is never
reset; the inner observable has been subscribed once if the flag is set and not at all
otherwise; every teardown invoked is the one of that activation; as long as no teardown has been
invoked, the flag is set exactly when the set is non-empty, so that one activation is live when
the set is non-empty and none when it is empty; and every unsubscribe of an outstanding handle
returns normally, leaves the flag set, and invokes the upstream teardown once if it empties the
set and not at all otherwise. -/
theorem state_invariant (inner : Observable) (w0 w : World) (s : SharedObservable)
    (hs : List Handle) (hr : Reachable inner w0 s w hs) :
    (s.subscribers ≠ [] → s.started = true) ∧
      (s.started = false → s = SharedObservable.new inner ∧ w = w0 ∧ hs = []) ∧
      w.activations = w0.activations + (if s.started then 1 else 0) ∧
      (∃ n, w.teardowns = w0.teardowns ++ List.replicate n w0.activations ∧
        (n = 0 → (s.started = true ↔ s.subscribers ≠ []))) ∧
      ∀ h ∈ hs, (s.unsubscribe h w).1 = .normal () ∧ (s.unsubscribe h w).2.1.started = true ∧
        (s.unsubscribe h w).2.2 =
          if (s.unsubscribe h w).2.1.subscribers = [] then
            { w with teardowns := w.teardowns ++ [w0.activations] }
          else w := by
  obtain ⟨⟨_, _⟩, hB, hC, n, hD1, hD2⟩ := hr.invariant
  have hE : s.subscribers ≠ [] → s.started = true := by
    intro hne
    cases hst : s.started with
    | true => rfl
    | false =>
      have := (hB hst).1
      rw [this] at hne
      simp [SharedObservable.new] at hne
  refine ⟨hE, hB, ?_, ⟨n, hD1, fun hn => ⟨hD2 hn, hE⟩⟩, ?_⟩
  · cases hst : s.started with
    | true => simpa using (hC hst).2
    | false => simpa using congrArg World.activations (hB hst).2.1
  · intro h hmem
    have hst : s.started = true := by
      cases hst : s.started with
      | true => rfl
      | false =>
        have := (hB hst).2.2
        rw [this] at hmem
        simp at hmem
    have hc := (hC hst).1
    obtain ⟨S, st, inn, cn⟩ := s
    simp only at hst hc
    subst hst hc
    by_cases hz : S.erase h.subscriber = []
    · simp [SharedObservable.unsubscribe, setDelete, hz, Disposable.call, Teardown.invoke]
    · simp [SharedObservable.unsubscribe, setDelete, hz]

/-- The amended C8 at the state of the demo after one subscribe and the unsubscribe of its
handle. -/
theorem state_invariant_witness :
    ((single.2.1.unsubscribe ⟨demoObserver 1⟩ single.2.2).2.1.subscribers ≠ [] →
        (single.2.1.unsubscribe ⟨demoObserver 1⟩ single.2.2).2.1.started = true) ∧
      (single.2.1.unsubscribe ⟨demoObserver 1⟩ single.2.2).2.2.activations =
        World.empty.activations +
          (if (single.2.1.unsubscribe ⟨demoObserver 1⟩ single.2.2).2.1.started then 1 else 0) := by
  have h := state_invariant keepgoing World.empty
    (single.2.1.unsubscribe ⟨demoObserver 1⟩ single.2.2).2.2
    (single.2.1.unsubscribe ⟨demoObserver 1⟩ single.2.2).2.1 ([⟨demoObserver 1⟩].erase ⟨demoObserver 1⟩)
    (Reachable.unsubscribe ⟨demoObserver 1⟩ _ _ _
      (Reachable.subscribe (demoObserver 1) ⟨demoObserver 1⟩ single.2.1 single.2.2
        (@Reachable.init keepgoing World.empty) rfl)
      (List.mem_singleton.mpr rfl) rfl)
  exact ⟨h.1, h.2.2.1⟩

theorem Observer.call_received_other (x o : Observer) (e : Event) (w : World) (h : x ≠ o) :
    (x.call e w).2.received o = w.received o := by
  unfold Observer.call
  split
  · simp [World.received, List.filter_append, h]
  · rfl

/-- The broadcast loop delivers nothing to an observer outside the set, however it ends. -/
theorem broadcast_received_outside (S : List Observer) (o : Observer) (e : Event) (w : World)
    (h : o ∉ S) : (broadcast S e w).2.received o = w.received o := by
  induction S generalizing w with
  | nil => rfl
  | cons x S ih =>
    have hx : x ≠ o := fun hxo => h (hxo ▸ List.mem_cons_self x S)
    have hS : o ∉ S := fun hm => h (List.mem_cons_of_mem x hm)
    have hc := Observer.call_received_other x o e w hx
    unfold broadcast
    rcases hcall : x.call e w with ⟨c, w1⟩
    rw [hcall] at hc
    cases c with
    | normal v => simp only; rw [ih w1 hS]; exact hc
    | throw err => exact hc

/-- A sequence of broadcasts delivers nothing to an observer outside the set, however it
ends. -/
theorem deliverAll_received_outside (s : SharedObservable) (o : Observer) (es : List Event)
    (w : World) (h : o ∉ s.subscribers) : (s.deliverAll es w).2.received o = w.received o := by
  induction es generalizing w with
  | nil => rfl
  | cons e es ih =>
    have hc := broadcast_received_outside s.subscribers o e w h
    simp only [SharedObservable.deliverAll, emitAll, SharedObservable.deliver]
    rcases hcall : broadcast s.subscribers e w with ⟨c, w1⟩
    rw [hcall] at hc
    cases c with
    | normal v =>
      simp only
      have := ih w1
      simp only [SharedObservable.deliverAll, SharedObservable.deliver] at this
      rw [this]; exact hc
    | throw err => exact hc

/-- C11, as stated, fails: with a full observer, a demo observer (no `error` callback) and
another full observer registered, unsubscribing the handle of the first returns normally and
leaves the other two registered; when the upstream then emits `error(7)`, the broadcast throws a
TypeError at the demo observer and the full observer behind it, still registered, does not
receive the event. -/
theorem unsubscribe_removes_own_counterexample :
    firstUnsubscribed.1 = .normal () ∧
      firstUnsubscribed.2.1.subscribers = [demoObserver 2, fullObserver 3] ∧
      firstUnsubscribed.2.2.teardowns = [] ∧
      (firstUnsubscribed.2.1.deliver (.error 7) firstUnsubscribed.2.2).1 = .throw .typeError ∧
      (firstUnsubscribed.2.1.deliver (.error 7) firstUnsubscribed.2.2).2.received
        (fullObserver 3) = [] := by
  decide

/-- C11, amended: with distinct observers `a` and `b` registered, unsubscribing the handle of
`a` returns normally, removes exactly `a` from the observer set, leaves `b` and every other
observer registered, and touches nothing else (no upstream teardown). Whatever the upstream
emits afterwards, nothing is delivered to `a`; and every event whose callback the remaining
observers carry is delivered to `b`. Unsubscribing an observer that is not in the set while
observers remain, `a` a second time included, changes nothing. -/
theorem unsubscribe_removes_own (s : SharedObservable) (a b : Observer) (w : World)
    (es : List Event) (hnd : s.subscribers.Nodup) (ha : a ∈ s.subscribers)
    (hb : b ∈ s.subscribers) (hab : a ≠ b) :
    s.unsubscribe ⟨a⟩ w =
        (.normal (), { s with subscribers := s.subscribers.erase a }, w) ∧
      a ∉ s.subscribers.erase a ∧ b ∈ s.subscribers.erase a ∧
      (∀ o, o ≠ a → (o ∈ s.subscribers.erase a ↔ o ∈ s.subscribers)) ∧
      (SharedObservable.deliverAll { s with subscribers := s.subscribers.erase a } es w).2.received
          a = w.received a ∧
      ((∀ e ∈ es, ∀ x ∈ s.subscribers.erase a, x.implements e = true) →
        (SharedObservable.deliverAll { s with subscribers := s.subscribers.erase a } es
          w).2.received b = w.received b ++ es) ∧
      SharedObservable.unsubscribe { s with subscribers := s.subscribers.erase a } ⟨a⟩ w =
        (.normal (), { s with subscribers := s.subscribers.erase a }, w) ∧
      ∀ x, x ∉ s.subscribers → s.unsubscribe ⟨x⟩ w = (.normal (), s, w) := by
  have hna : a ∉ s.subscribers.erase a := hnd.not_mem_erase
  have hbe : b ∈ s.subscribers.erase a := (List.mem_erase_of_ne (Ne.symm hab)).mpr hb
  have hne : s.subscribers.erase a ≠ [] := List.ne_nil_of_mem hbe
  have hne0 : s.subscribers ≠ [] := List.ne_nil_of_mem ha
  refine ⟨?_, hna, hbe, fun o ho => List.mem_erase_of_ne ho, ?_, ?_, ?_, ?_⟩
  · simp [SharedObservable.unsubscribe, setDelete, hne]
  · exact deliverAll_received_outside _ a es w hna
  · intro himp
    have h := deliverAll_received_of_implements
      { s with subscribers := s.subscribers.erase a } es w (hnd.erase a) himp b
    rw [h]
    simp [hbe]
  · have he : (s.subscribers.erase a).erase a = s.subscribers.erase a :=
      List.erase_of_not_mem hna
    simp [SharedObservable.unsubscribe, setDelete, hne, he]
  · intro x hx
    have he : s.subscribers.erase x = s.subscribers := List.erase_of_not_mem hx
    simp [SharedObservable.unsubscribe, setDelete, hne0, he]

/-- The amended C11 at the demo after two subscribes: the first handle is unsubscribed, then the timer
fires. -/
theorem unsubscribe_removes_own_witness :
    SharedObservable.unsubscribe ⟨[demoObserver 1, demoObserver 2], true, keepgoing, some ⟨⟨0⟩⟩⟩
        ⟨demoObserver 1⟩ ⟨[], 1, []⟩ =
        (.normal (), ⟨[demoObserver 2], true, keepgoing, some ⟨⟨0⟩⟩⟩, ⟨[], 1, []⟩) ∧
      (SharedObservable.deliverAll ⟨[demoObserver 2], true, keepgoing, some ⟨⟨0⟩⟩⟩
        [.next 4, .next 9] ⟨[], 1, []⟩).2.received (demoObserver 1) = [] ∧
      (SharedObservable.deliverAll ⟨[demoObserver 2], true, keepgoing, some ⟨⟨0⟩⟩⟩
        [.next 4, .next 9] ⟨[], 1, []⟩).2.received (demoObserver 2) = [.next 4, .next 9] := by
  have h := unsubscribe_removes_own ⟨[demoObserver 1, demoObserver 2], true, keepgoing,
    some ⟨⟨0⟩⟩⟩ (demoObserver 1) (demoObserver 2) ⟨[], 1, []⟩ [.next 4, .next 9]
    (by decide) (by decide) (by decide) (by decide)
  exact ⟨h.1, h.2.2.2.2.1, h.2.2.2.2.2.1 (by decide)⟩

theorem emitAll_call_frame (o : Observer) (es : List Event) (w : World) :
    (emitAll o.call es w).2.activations = w.activations ∧
      (emitAll o.call es w).2.teardowns = w.teardowns := by
  induction es generalizing w with
  | nil => simp [emitAll]
  | cons e es ih =>
    have hc := Observer.call_activations o e w
    unfold emitAll
    rcases hcall : o.call e w with ⟨c, w1⟩
    rw [hcall] at hc
    cases c with
    | normal v => simp only; rw [(ih w1).1, (ih w1).2]; exact hc
    | throw err => exact hc

/-- `Observable.subscribe` and the producer call inside it end the same way in the same
world. -/
theorem Observable.subscribe_eq_invoke (obs : Observable) (subscriber : Subscriber) (w : World) :
    (obs.subscribe subscriber w).2 = (obs.subscriberFn.invoke subscriber w).2 ∧
      ∀ e, (obs.subscribe subscriber w).1 = .throw e ↔
        (obs.subscriberFn.invoke subscriber w).1 = .throw e := by
  unfold Observable.subscribe
  rcases obs.subscriberFn.invoke subscriber w with ⟨c, w1⟩
  cases c <;> simp

/-- Firings of a timer whose teardown has been invoked deliver nothing. -/
theorem keepgoingTicks_cleared (subscriber : Subscriber) (n : Nat) (vs : List Int) (w : World)
    (h : n ∈ w.teardowns) : keepgoingTicks subscriber n vs w = (.normal (), w) := by
  induction vs with
  | nil => rfl
  | cons v vs ih => simp [keepgoingTicks, keepgoingTick, h, ih]

/-- C12: the Disposable returned by `Observable.subscribe` carries the teardown of the
activation that this call started, so one call of its unsubscribe adds exactly that
activation's teardown to the teardown log and changes nothing else. For `keepgoing`, whose
teardown clears the timer: subscribe returns the teardown of the new activation; while that
teardown has not been invoked a firing of the timer delivers `next` to an observer carrying it;
after one unsubscribe no sequence of firings delivers anything. -/
theorem teardown_on_unsubscribe (obs : Observable) (subscriber : Subscriber) (w w1 : World)
    (d : Disposable) (hr : obs.subscribe subscriber w = (.normal d, w1)) :
    d.unsubscribe = ⟨w.activations⟩ ∧
      d.call w1 = { w1 with teardowns := w1.teardowns ++ [w.activations] } ∧
      ∀ (o : Observer) (v : World) (vs : List Int),
        keepgoing.subscribe o.call v =
            (.normal ⟨⟨v.activations⟩⟩, { v with activations := v.activations + 1 }) ∧
          keepgoingTicks o.call v.activations vs
              (Disposable.call ⟨⟨v.activations⟩⟩ { v with activations := v.activations + 1 }) =
            (.normal (),
              Disposable.call ⟨⟨v.activations⟩⟩ { v with activations := v.activations + 1 }) ∧
          (o.hasNext = true → v.activations ∉ v.teardowns → ∀ x : Int,
            keepgoingTick o.call v.activations x { v with activations := v.activations + 1 } =
              (.normal (),
                { v with
                  activations := v.activations + 1
                  log := v.log ++ [(o, .next x)] })) := by
  have hd := (Observable.subscribe_normal obs subscriber w w1 d hr).1
  subst hd
  refine ⟨rfl, rfl, ?_⟩
  intro o v vs
  refine ⟨rfl, ?_, ?_⟩
  · exact keepgoingTicks_cleared _ _ vs _ (by simp [Disposable.call, Teardown.invoke])
  · intro hn hv x
    simp [keepgoingTick, hv, Observer.call, Observer.implements, hn]

/-- C12 at `keepgoing` with a demo observer: two firings before the unsubscribe are delivered,
two firings after it are not. -/
theorem teardown_on_unsubscribe_witness :
    keepgoing.subscribe (demoObserver 1).call World.empty = (.normal ⟨⟨0⟩⟩, ⟨[], 1, []⟩) ∧
      keepgoingTicks (demoObserver 1).call 0 [3, 8] ⟨[], 1, []⟩ =
        (.normal (), ⟨[(demoObserver 1, .next 3), (demoObserver 1, .next 8)], 1, []⟩) ∧
      Disposable.call ⟨⟨0⟩⟩ ⟨[(demoObserver 1, .next 3), (demoObserver 1, .next 8)], 1, []⟩ =
        ⟨[(demoObserver 1, .next 3), (demoObserver 1, .next 8)], 1, [0]⟩ ∧
      keepgoingTicks (demoObserver 1).call 0 [5, 6]
          ⟨[(demoObserver 1, .next 3), (demoObserver 1, .next 8)], 1, [0]⟩ =
        (.normal (), ⟨[(demoObserver 1, .next 3), (demoObserver 1, .next 8)], 1, [0]⟩) := by
  have h := teardown_on_unsubscribe keepgoing (demoObserver 1).call World.empty ⟨[], 1, []⟩
    ⟨⟨0⟩⟩ rfl
  refine ⟨rfl, by decide, by decide, ?_⟩
  exact (h.2.2 (demoObserver 1)
    ⟨[(demoObserver 1, .next 3), (demoObserver 1, .next 8)], 0, []⟩ [5, 6]).2.1

/-- C13: `Observable.subscribe` throws exactly when the producer call inside it throws, and it
throws the same error; it then returns no Disposable; and it leaves the world exactly as the
producer call left it, so it calls no callback of the observer itself. In particular, when the
producer body throws `e` after calling callbacks that the observer carries, `subscribe` throws
`e` and the observer has received the producer's events and no `error` event on top. -/
theorem activation_failure_propagates (obs : Observable) (subscriber : Subscriber) (w : World) :
    (∀ e, (obs.subscribe subscriber w).1 = .throw e ↔
        (obs.subscriberFn.invoke subscriber w).1 = .throw e) ∧
      (obs.subscribe subscriber w).2 = (obs.subscriberFn.invoke subscriber w).2 ∧
      (∀ e, (obs.subscriberFn.invoke subscriber w).1 = .throw e →
        ∀ d, (obs.subscribe subscriber w).1 ≠ .normal d) ∧
      ∀ (o : Observer) (e : JsError), (obs.subscriberFn w.activations).throws = some e →
        (∀ x ∈ (obs.subscriberFn w.activations).emits, o.implements x = true) →
        obs.subscribe o.call w =
          (.throw e,
            { w with
              log := w.log ++ (obs.subscriberFn w.activations).emits.map (fun x => (o, x))
              activations := w.activations + 1 }) := by
  obtain ⟨h1, h2⟩ := Observable.subscribe_eq_invoke obs subscriber w
  refine ⟨h2, h1, ?_, ?_⟩
  · intro e he d hd
    have := (h2 e).mpr he
    rw [this] at hd
    cases hd
  · intro o e ht himp
    simp only [Observable.subscribe, Producer.invoke]
    rw [emitAll_call_of_implements o _ _ himp]
    simp [ht]

/-- C14: `Observable.subscribe` invokes no teardown: for every producer, whatever it emits and
however it ends, the teardown log after the call is the log before it, with an observer as the
subscriber and with the broadcaster of a SharedObservable as the subscriber. After a normal
return the log grows only by calls to the returned Disposable's unsubscribe, by one entry of
this activation's teardown per call. -/
theorem completion_is_advisory (p : Producer) (o : Observer) (w : World) :
    (Observable.subscribe ⟨p⟩ o.call w).2.teardowns = w.teardowns ∧
      (∀ S : List Observer,
        (Observable.subscribe ⟨p⟩ (broadcast S) w).2.teardowns = w.teardowns) ∧
      ∀ (d : Disposable) (w1 : World) (k : Nat),
        Observable.subscribe ⟨p⟩ o.call w = (.normal d, w1) →
        (d.callTimes k w1).teardowns = w.teardowns ++ List.replicate k w.activations := by
  have key : ∀ (sub : Subscriber),
      (∀ es v, (emitAll sub es v).2.teardowns = v.teardowns) →
      (Observable.subscribe ⟨p⟩ sub w).2.teardowns = w.teardowns := by
    intro sub hsub
    have hf := hsub (p w.activations).emits { w with activations := w.activations + 1 }
    simp only [Observable.subscribe, Producer.invoke]
    rcases he : emitAll sub (p w.activations).emits { w with activations := w.activations + 1 }
      with ⟨c, w2⟩
    rw [he] at hf
    cases c with
    | throw err => simpa using hf
    | normal v =>
      cases ht : (p w.activations).throws with
      | some err => simpa [ht] using hf
      | none => simpa [ht] using hf
  have h1 := key o.call (fun es v => (emitAll_call_frame o es v).2)
  refine ⟨h1, fun S => key (broadcast S) (fun es v => (emitAll_frame S es v).2), ?_⟩
  intro d w1 k hr
  have hd := (Observable.subscribe_normal ⟨p⟩ o.call w w1 d hr).1
  rw [hr] at h1
  simp only at h1
  rw [Disposable.callTimes_eq, hd, h1]

/-- C13 at a producer that calls `next(1)` and then throws `7`, with a demo observer. -/
theorem activation_failure_propagates_witness :
    Observable.subscribe ⟨fun _ => ⟨[.next 1], some (.thrown 7)⟩⟩ (demoObserver 1).call
        World.empty =
      (.throw (.thrown 7), ⟨[(demoObserver 1, .next 1)], 1, []⟩) :=
  (activation_failure_propagates ⟨fun _ => ⟨[.next 1], some (.thrown 7)⟩⟩ (demoObserver 1).call
    World.empty).2.2.2 (demoObserver 1) (.thrown 7) rfl (by decide)

/-- C14 at `onetwothree`, which calls `complete` during activation, with a demo observer: no
teardown when subscribe returns, one after one unsubscribe. -/
theorem completion_is_advisory_witness :
    (onetwothree.subscribe (demoObserver 1).call World.empty).2.teardowns = [] ∧
      (Disposable.callTimes ⟨⟨0⟩⟩ 1
        (onetwothree.subscribe (demoObserver 1).call World.empty).2).teardowns = [0] := by
  have h := completion_is_advisory onetwothreeFn (demoObserver 1) World.empty
  exact ⟨h.1, h.2.2 ⟨⟨0⟩⟩ _ 1 rfl⟩

/-- C15: when the upstream delivers a signal, `complete` and `error` included, the component
(observer set, started flag, stored upstream handle) is the same after the broadcast as before
it, no teardown is invoked and the inner observable is not subscribed, whether the broadcast
returns or throws; what changes is the delivery log, and only for observers of the set. -/
theorem terminal_signal_frame (s : SharedObservable) (e : Event) (w : World) :
    (s.upstream e w).2.1 = s ∧
      (s.upstream e w).2.1.subscribers = s.subscribers ∧
      (s.upstream e w).2.1.started = s.started ∧
      (s.upstream e w).2.1.cancel = s.cancel ∧
      (s.upstream e w).2.2.teardowns = w.teardowns ∧
      (s.upstream e w).2.2.activations = w.activations ∧
      (∀ o, o ∉ s.subscribers → (s.upstream e w).2.2.received o = w.received o) ∧
      ((∀ x ∈ s.subscribers, x.implements e = true) →
        s.upstream e w =
          (.normal (), s, { w with log := w.log ++ s.subscribers.map (fun x => (x, e)) })) := by
  have hf := broadcast_frame s.subscribers e w
  refine ⟨rfl, rfl, rfl, rfl, hf.2, hf.1, ?_, ?_⟩
  · intro o ho
    exact broadcast_received_outside s.subscribers o e w ho
  · intro himp
    simp [SharedObservable.upstream, SharedObservable.deliver,
      broadcast_of_implements s.subscribers e w himp]

/-- C15 at the demo with two observers and `complete`. -/
theorem terminal_signal_frame_witness :
    (SharedObservable.upstream ⟨[demoObserver 1, demoObserver 2], true, keepgoing, some ⟨⟨0⟩⟩⟩
        .complete ⟨[], 1, []⟩).2.2 =
      ⟨[(demoObserver 1, .complete), (demoObserver 2, .complete)], 1, []⟩ := by
  have h := (terminal_signal_frame ⟨[demoObserver 1, demoObserver 2], true, keepgoing,
    some ⟨⟨0⟩⟩⟩ .complete ⟨[], 1, []⟩).2.2.2.2.2.2.2 (by decide)
  rw [h]
  rfl

/-- The world after the activating subscribe of an observer that carries every callback the
producer calls, on a component whose set holds only this observer. -/
theorem SharedObservable.subscribe_new_world (inner : Observable) (a : Observer) (w : World)
    (ha : ∀ x ∈ (inner.subscriberFn w.activations).emits, a.implements x = true) :
    ((SharedObservable.new inner).subscribe a w).2.2 =
      { w with
        log := w.log ++ (inner.subscriberFn w.activations).emits.map (fun x => (a, x))
        activations := w.activations + 1 } := by
  have hb : broadcast [a] = a.call := by
    funext e v
    unfold broadcast
    rcases hcall : a.call e v with ⟨c, v1⟩
    cases c <;> simp [broadcast]
  simp only [SharedObservable.subscribe, SharedObservable.new, setAdd, List.not_mem_nil,
    if_false, List.nil_append, Bool.not_false, if_true, Observable.subscribe, Producer.invoke, hb]
  rw [emitAll_call_of_implements a _ _ ha]
  cases (inner.subscriberFn w.activations).throws <;> rfl

/-- C16: the first subscribe to a fresh component puts its observer into the set before it
subscribes to the inner observable, so every event the producer emits during that activation
has been delivered to the first observer, in order, when the call ends (the observer carrying
the callbacks of these events). When the call has returned normally, subscribing a different
observer afterwards returns normally and delivers nothing: the second observer has received none
of the earlier events. -/
theorem first_subscriber_sees_activation (inner : Observable) (a b : Observer) (w : World)
    (ha : ∀ x ∈ (inner.subscriberFn w.activations).emits, a.implements x = true)
    (hab : b ≠ a) :
    ((SharedObservable.new inner).subscribe a w).2.2 =
        { w with
          log := w.log ++ (inner.subscriberFn w.activations).emits.map (fun x => (a, x))
          activations := w.activations + 1 } ∧
      ((SharedObservable.new inner).subscribe a w).2.2.received a =
        w.received a ++ (inner.subscriberFn w.activations).emits ∧
      ((SharedObservable.new inner).subscribe a w).2.2.received b = w.received b ∧
      ((inner.subscriberFn w.activations).throws = none →
        (SharedObservable.new inner).subscribe a w =
            (.normal ⟨a⟩, ⟨[a], true, inner, some ⟨⟨w.activations⟩⟩⟩,
              ((SharedObservable.new inner).subscribe a w).2.2) ∧
          SharedObservable.subscribe ⟨[a], true, inner, some ⟨⟨w.activations⟩⟩⟩ b
              ((SharedObservable.new inner).subscribe a w).2.2 =
            (.normal ⟨b⟩, ⟨[a, b], true, inner, some ⟨⟨w.activations⟩⟩⟩,
              ((SharedObservable.new inner).subscribe a w).2.2)) := by
  have hw := SharedObservable.subscribe_new_world inner a w ha
  refine ⟨hw, ?_, ?_, ?_⟩
  · rw [hw]
    simp only [World.received, List.filter_append, List.map_append]
    rw [received_map_self a]
  · rw [hw]
    simp only [World.received, List.filter_append, List.map_append]
    rw [received_map_other b a _ hab.symm]
    simp
  · intro ht
    have hn : ((SharedObservable.new inner).subscribe a w).1 = .normal ⟨a⟩ := by
      have hb : broadcast [a] = a.call := by
        funext e v
        unfold broadcast
        rcases hcall : a.call e v with ⟨c, v1⟩
        cases c <;> simp [broadcast]
      simp only [SharedObservable.subscribe, SharedObservable.new, setAdd, List.not_mem_nil,
        if_false, List.nil_append, Bool.not_false, if_true, Observable.subscribe,
        Producer.invoke, hb]
      rw [emitAll_call_of_implements a _ _ ha]
      simp [ht]
    constructor
    · rcases hr : (SharedObservable.new inner).subscribe a w with ⟨c, s1, w1⟩
      rw [hr] at hn
      simp only at hn
      obtain ⟨_, k2, _, _⟩ := SharedObservable.subscribe_of_not_started
        (SharedObservable.new inner) a w rfl ⟨a⟩ s1 w1 (by rw [hr, hn])
      rw [hn, k2]
      simp [SharedObservable.new, setAdd]
    · rw [SharedObservable.subscribe_of_started _ b _ rfl]
      simp [setAdd, hab]

/-- C16 at `onetwothree` with two demo observers. -/
theorem first_subscriber_sees_activation_witness :
    ((SharedObservable.new onetwothree).subscribe (demoObserver 1) World.empty).2.2.received
        (demoObserver 1) = [.next 1, .next 2, .next 3, .complete] ∧
      ((SharedObservable.new onetwothree).subscribe (demoObserver 1) World.empty).2.2.received
        (demoObserver 2) = [] := by
  have h := first_subscriber_sees_activation onetwothree (demoObserver 1) (demoObserver 2)
    World.empty (by decide) (by decide)
  exact ⟨h.2.1, h.2.2.1⟩

theorem setAdd_idem (S : List Observer) (o : Observer) : setAdd (setAdd S o) o = setAdd S o := by
  by_cases h : o ∈ S
  · simp [setAdd, h]
  · simp [setAdd, h]

/-- A subscribe call that returns normally: the handle captures the observer, the observer is
in the set, and the component has started. -/
theorem SharedObservable.subscribe_returns (s : SharedObservable) (o : Observer) (w w1 : World)
    (hd : Handle) (s1 : SharedObservable)
    (hr : s.subscribe o w = (.normal hd, s1, w1)) :
    hd = ⟨o⟩ ∧ s1.subscribers = setAdd s.subscribers o ∧ s1.started = true ∧
      s1.inner = s.inner ∧ (s.started = true → s1.cancel = s.cancel ∧ w1 = w) ∧
      (s.started = false → s1.cancel = some ⟨⟨w.activations⟩⟩) := by
  cases hst : s.started with
  | true =>
    rw [SharedObservable.subscribe_of_started s o w hst] at hr
    simp only [Prod.mk.injEq, Completion.normal.injEq] at hr
    obtain ⟨e1, e2, e3⟩ := hr
    subst e1 e2 e3
    exact ⟨rfl, rfl, hst, rfl, fun _ => ⟨rfl, rfl⟩, fun h => by simp at h⟩
  | false =>
    obtain ⟨k1, k2, _, _⟩ := SharedObservable.subscribe_of_not_started s o w hst hd s1 w1 hr
    subst k1 k2
    exact ⟨rfl, rfl, rfl, rfl, fun h => by simp at h, fun _ => rfl⟩

/-- C17, as stated, fails: with a demo observer (no `error` callback) registered and a full
observer subscribed twice after it, the three subscribes return normally and the full observer
is registered once; when the upstream emits `error(7)`, the broadcast throws a TypeError at the
demo observer and the full observer receives the event zero times. -/
theorem duplicate_registration_counterexample :
    subscribedTwice.1 = .normal [⟨demoObserver 1⟩, ⟨fullObserver 2⟩, ⟨fullObserver 2⟩] ∧
      subscribedTwice.2.1.subscribers = [demoObserver 1, fullObserver 2] ∧
      (subscribedTwice.2.1.deliver (.error 7) subscribedTwice.2.2).1 = .throw .typeError ∧
      (subscribedTwice.2.1.deliver (.error 7) subscribedTwice.2.2).2.received
        (fullObserver 2) = [] := by
  decide

/-- C17, amended: when a subscribe of observer `o` has returned normally, a second subscribe of
the same observer returns a handle that captures the same observer and changes neither the
component nor the world: the observer is registered once, the set having grown by one over the
two calls when `o` was new. An upstream event whose callback every registered observer carries
is then delivered to `o` once. One unsubscribe through either handle removes `o` from the set
altogether, and when `o` was the only observer that one call also invokes the upstream teardown,
the other handle not having been unsubscribed. -/
theorem duplicate_registration_collapses (s s1 : SharedObservable) (o : Observer)
    (w w1 : World) (hd : Handle) (hnd : s.subscribers.Nodup)
    (hc : s.started = true → ∃ d, s.cancel = some d)
    (hr : s.subscribe o w = (.normal hd, s1, w1)) :
    s1.subscribe o w1 = (.normal hd, s1, w1) ∧
      s1.subscribers = setAdd s.subscribers o ∧
      (o ∉ s.subscribers → s1.subscribers.length = s.subscribers.length + 1) ∧
      (∀ (e : Event) (v : World), (∀ x ∈ s1.subscribers, x.implements e = true) →
        (s1.deliver e v).2.received o = v.received o ++ [e]) ∧
      (∀ v : World, o ∉ (s1.unsubscribe hd v).2.1.subscribers ∧
        (s1.unsubscribe hd v).2.1.subscribers = s.subscribers.erase o) ∧
      (s.subscribers.erase o = [] → ∃ d, s1.cancel = some d ∧ ∀ v : World,
        s1.unsubscribe hd v = (.normal (), { s1 with subscribers := [] }, d.call v)) := by
  obtain ⟨k1, k2, k3, _, k5, k6⟩ := SharedObservable.subscribe_returns s o w w1 hd s1 hr
  subst k1
  have hnd1 : s1.subscribers.Nodup := by rw [k2]; exact setAdd_nodup _ o hnd
  have hmem : o ∈ s1.subscribers := by
    rw [k2]
    unfold setAdd
    split <;> simp_all
  have herase : s1.subscribers.erase o = s.subscribers.erase o := by
    rw [k2]
    by_cases h : o ∈ s.subscribers
    · simp [setAdd, h]
    · have : (s.subscribers ++ [o]).erase o = s.subscribers := by
        rw [List.erase_append_right _ h]
        simp
      simp [setAdd, h, this, List.erase_of_not_mem h]
  have hcancel : ∃ d, s1.cancel = some d := by
    cases hst : s.started with
    | true =>
      obtain ⟨d, hd2⟩ := hc hst
      exact ⟨d, by rw [(k5 hst).1, hd2]⟩
    | false => exact ⟨_, k6 hst⟩
  refine ⟨?_, k2, ?_, ?_, ?_, ?_⟩
  · rw [SharedObservable.subscribe_of_started s1 o w1 k3]
    have : setAdd s1.subscribers o = s1.subscribers := by simp [setAdd, hmem]
    rw [this]
  · intro hno
    rw [k2]
    simp [setAdd, hno]
  · intro e v himp
    rw [(SharedObservable.deliver_of_implements s1 e v hnd1 himp).2 o]
    simp [hmem]
  · intro v
    have hsub : (s1.unsubscribe ⟨o⟩ v).2.1.subscribers = s1.subscribers.erase o := by
      simp only [SharedObservable.unsubscribe, setDelete]
      split
      · split <;> rfl
      · rfl
    rw [hsub]
    exact ⟨hnd1.not_mem_erase, herase⟩
  · intro hemp
    obtain ⟨d, hd2⟩ := hcancel
    refine ⟨d, hd2, ?_⟩
    intro v
    have he : s1.subscribers.erase o = [] := by rw [herase, hemp]
    simp [SharedObservable.unsubscribe, setDelete, he, hd2]

/-- The amended C17 at the demo: one demo observer subscribed twice to `keepgoing`, one unsubscribe. -/
theorem duplicate_registration_collapses_witness :
    SharedObservable.subscribe ⟨[demoObserver 1], true, keepgoing, some ⟨⟨0⟩⟩⟩ (demoObserver 1)
        ⟨[], 1, []⟩ =
        (.normal ⟨demoObserver 1⟩, ⟨[demoObserver 1], true, keepgoing, some ⟨⟨0⟩⟩⟩,
          ⟨[], 1, []⟩) ∧
      SharedObservable.unsubscribe ⟨[demoObserver 1], true, keepgoing, some ⟨⟨0⟩⟩⟩
        ⟨demoObserver 1⟩ ⟨[], 1, []⟩ =
        (.normal (), ⟨[], true, keepgoing, some ⟨⟨0⟩⟩⟩, ⟨[], 1, [0]⟩) := by
  have h := duplicate_registration_collapses (SharedObservable.new keepgoing)
    ⟨[demoObserver 1], true, keepgoing, some ⟨⟨0⟩⟩⟩ (demoObserver 1) World.empty ⟨[], 1, []⟩
    ⟨demoObserver 1⟩ (by decide) (by intro h; cases h) rfl
  refine ⟨h.1, ?_⟩
  obtain ⟨d, hd, hu⟩ := h.2.2.2.2.2 (by decide)
  have hd0 : d = ⟨⟨0⟩⟩ := by
    simp only [Option.some.injEq] at hd
    exact hd.symm
  subst hd0
  exact hu ⟨[], 1, []⟩

/-- C18: when the inner observable's subscribe throws during the first subscribe of a fresh
component, the component's subscribe throws the same error; the started flag is still false and
no upstream handle is stored, but the observer is in the set. The next subscribe therefore
subscribes to the inner observable again (a second activation), and when that call returns
normally the component has started with the earlier observer still registered, so an upstream
event is delivered to it, once, although its own subscribe call threw. -/
theorem failed_activation_not_atomic (inner : Observable) (o b : Observer) (w : World)
    (e : JsError) (hfail : (inner.subscribe (broadcast [o]) w).1 = .throw e) :
    (SharedObservable.new inner).subscribe o w =
        (.throw e, ⟨[o], false, inner, none⟩, (inner.subscribe (broadcast [o]) w).2) ∧
      (inner.subscribe (broadcast [o]) w).2.activations = w.activations + 1 ∧
      (SharedObservable.subscribe ⟨[o], false, inner, none⟩ b
        (inner.subscribe (broadcast [o]) w).2).2.2.activations = w.activations + 2 ∧
      ∀ (hd : Handle) (s2 : SharedObservable) (w2 : World),
        SharedObservable.subscribe ⟨[o], false, inner, none⟩ b
            (inner.subscribe (broadcast [o]) w).2 = (.normal hd, s2, w2) →
        s2 = ⟨setAdd [o] b, true, inner, some ⟨⟨w.activations + 1⟩⟩⟩ ∧ o ∈ s2.subscribers ∧
          ∀ (ev : Event) (v : World), (∀ x ∈ s2.subscribers, x.implements ev = true) →
            (s2.deliver ev v).2.received o = v.received o ++ [ev] := by
  have h1 : (SharedObservable.new inner).subscribe o w =
      (.throw e, ⟨[o], false, inner, none⟩, (inner.subscribe (broadcast [o]) w).2) := by
    simp only [SharedObservable.subscribe, SharedObservable.new, setAdd, List.not_mem_nil,
      if_false, List.nil_append, Bool.not_false, if_true]
    rcases hr : inner.subscribe (broadcast [o]) w with ⟨c, w1⟩
    rw [hr] at hfail
    simp only at hfail
    subst hfail
    rfl
  have hact := SharedObservable.subscribe_activations (SharedObservable.new inner) o w rfl
  rw [h1] at hact
  simp only at hact
  have hact2 := SharedObservable.subscribe_activations ⟨[o], false, inner, none⟩ b
    (inner.subscribe (broadcast [o]) w).2 rfl
  rw [hact] at hact2
  refine ⟨h1, hact, hact2, ?_⟩
  intro hd s2 w2 hr
  obtain ⟨_, k2, _, _⟩ := SharedObservable.subscribe_of_not_started ⟨[o], false, inner, none⟩ b
    (inner.subscribe (broadcast [o]) w).2 rfl hd s2 w2 hr
  rw [hact] at k2
  simp only at k2
  have hmem : o ∈ s2.subscribers := by
    rw [k2]
    simp only [setAdd]
    split <;> simp
  have hnd : s2.subscribers.Nodup := by
    rw [k2]
    exact setAdd_nodup [o] b (List.nodup_singleton o)
  refine ⟨k2, hmem, ?_⟩
  intro ev v himp
  rw [(SharedObservable.deliver_of_implements s2 ev v hnd himp).2 o]
  simp [hmem]

/-- C18 at a producer whose first invocation throws `7` and whose second returns, with two demo
observers: the first subscribe throws, the second returns, and a later `next(4)` reaches both
observers. -/
theorem failed_activation_not_atomic_witness :
    (SharedObservable.new ⟨flakyFn⟩).subscribe (demoObserver 1) World.empty =
        (.throw (.thrown 7), ⟨[demoObserver 1], false, ⟨flakyFn⟩, none⟩,
          (Observable.subscribe ⟨flakyFn⟩ (broadcast [demoObserver 1]) World.empty).2) ∧
      (SharedObservable.subscribe ⟨[demoObserver 1], false, ⟨flakyFn⟩, none⟩ (demoObserver 2)
        (Observable.subscribe ⟨flakyFn⟩ (broadcast [demoObserver 1])
          World.empty).2).2.2.activations = 2 ∧
      (SharedObservable.deliver
        ⟨[demoObserver 1, demoObserver 2], true, ⟨flakyFn⟩, some ⟨⟨1⟩⟩⟩ (.next 4)
        ⟨[], 2, []⟩).2.received (demoObserver 1) = [.next 4] := by
  have h := failed_activation_not_atomic ⟨flakyFn⟩ (demoObserver 1) (demoObserver 2)
    World.empty (.thrown 7) (by decide)
  refine ⟨h.1, h.2.2.1, ?_⟩
  have h3 := (h.2.2.2 ⟨demoObserver 2⟩
    ⟨[demoObserver 1, demoObserver 2], true, ⟨flakyFn⟩, some ⟨⟨1⟩⟩⟩ ⟨[], 2, []⟩ rfl).2.2
    (.next 4) ⟨[], 2, []⟩ (by decide)
  exact h3

end Miobservable
